import Mathlib

/-!
Interactive API configuration of restish (`cli/interactive.go`).

A shallow embedding of the auto-configuration resolver `askLoadBaseAPI` and the
template rendering it performs, of the auth editor `askAuth`, the profile
editor `askEditProfile` and the session `askInitAPI`, followed by the
properties of them that the specification states.

Conventions of the embedding.

* A Go `map[string]V` is a finite map with unique keys (`GoMap V`); a map
  variable that may be `nil` is an `Option (GoMap V)`.  The order in which a
  `range` statement visits a map is chosen by the Go runtime, so every `range`
  over a map takes a `RangeOrder`, an arbitrary rearrangement of the entries.
* Pointers to profiles and auth blocks are owned by their parent (nothing in
  this file aliases them), so an update through a pointer is an update of the
  value stored in the parent; a `nil` pointer is `none`.  Profile pointers
  stored in the profile map are non-nil.
* The `asker` is the user: each answer is a function of the calls made so far
  and of the arguments of the call.  The list of calls made is threaded
  through every function.
* Strings are sequences of characters; `strings.ReplaceAll` and
  `strings.SplitN` with a non-empty pattern act on valid UTF-8 text exactly as
  on its sequence of characters.
* The loops of the editors run until the user ends them.  They are bounded by
  a number of rounds (`fuel`), and a function with such a loop returns a `Res`:
  it returned, it panicked (index out of range, nil map or pointer, nil
  interface), or the bound was reached.
* `fmt.Println` output is not modelled; `config.Save()` is the configuration
  the session returns.
-/

namespace Restish

/-! ## Strings -/

/-- The scan of `strings.ReplaceAll`: copy `s` left to right, replacing each
non-overlapping occurrence of `old` by `new`.  The counter is the number of
characters of the occurrence just replaced that are still to be skipped.  With
an empty `old`, `new` is inserted before every character and at the end. -/
def replaceFrom (old new : List Char) : Nat → List Char → List Char
  | _, [] => if old = [] then new else []
  | skip + 1, _ :: s => replaceFrom old new skip s
  | 0, c :: s =>
    if old.isPrefixOf (c :: s) then
      match old.length with
      | 0 => new ++ c :: replaceFrom old new 0 s
      | n + 1 => new ++ replaceFrom old new n s
    else c :: replaceFrom old new 0 s

/-- Go: `strings.ReplaceAll(s, old, new)`. -/
def ReplaceAll (s old new : String) : String :=
  ⟨replaceFrom old.data new.data 0 s.data⟩

/-- The placeholder of a name: Go `"{"+rn+"}"`. -/
def placeholder (rn : String) : String := "\x7b" ++ rn ++ "\x7d"

/-- Go: `strings.Contains(s, sub)`, as a proposition. -/
def Contains (s sub : String) : Prop := sub.data <:+: s.data

/-! ## Maps and their iteration order -/

/-- A Go `map[string]V` that is not nil. -/
abbrev GoMap (V : Type) := AList (fun _ : String => V)

/-- The order in which one `range` statement visits the entries of a map: any
rearrangement of them. -/
structure RangeOrder where
  /-- The entries in the order they are visited. -/
  f : {α : Type} → List α → List α
  /-- Nothing is visited twice and nothing is left out. -/
  perm : ∀ {α : Type} (l : List α), List.Perm (f l) l

/-- Visit the entries in the order they are stored. -/
def RangeOrder.stored : RangeOrder := ⟨fun l => l, fun l => List.Perm.refl l⟩

/-- Visit the entries in the reverse of the order they are stored. -/
def RangeOrder.reversed : RangeOrder := ⟨fun l => l.reverse, fun l => List.reverse_perm l⟩

/-- The entries a `range` over a possibly nil map visits, in order. -/
def rangeOver {V : Type} (ord : RangeOrder) : Option (GoMap V) → List (Sigma fun _ : String => V)
  | none => []
  | some m => ord.f m.entries

/-- Go: `m[k]` read from a possibly nil map, with its presence flag. -/
def mapGet {V : Type} (m : Option (GoMap V)) (k : String) : Option V :=
  match m with
  | none => none
  | some m => m.lookup k

/-- Go: `dst := map[string]string{}; for k, v := range src { dst[k] = v }`. -/
def copyMap (ord : RangeOrder) (src : Option (GoMap String)) : GoMap String :=
  (rangeOver ord src).foldl (fun dst e => dst.insert e.1 e.2) ∅

/-! ## Data model -/

/-- A value of the empty interface, as far as this file looks at it: only
through `fmt.Sprintf("%v", _)`. -/
structure Value where
  /-- The text `fmt.Sprintf("%v", _)` gives for the value. -/
  sprint : String
  deriving DecidableEq, Repr

/-- Modelled from the spec: the declaration of `AutoConfigVar` (the spec's
PromptSpec: optional default value, enumerated choices, description) is not
part of `interactive.go`.  The choices are a slice of interface values; the
prompt's default is a possibly nil interface value. -/
structure AutoConfigVar where
  Description : String
  Default : Option Value
  Enum : List Value
  deriving DecidableEq

/-- Modelled from the spec: the declaration of `APIAuth` (scheme name and
mapping of parameter name to value) is not part of `interactive.go`. -/
structure APIAuth where
  Name : String
  Params : Option (GoMap String)
  deriving DecidableEq

/-- Modelled from the spec: the declaration of `AutoConfig` (the spec's
AutoConfigBlock: mapping of prompt name to PromptSpec, and an auth template
whose parameters are template strings) is not part of `interactive.go`. -/
structure AutoConfig where
  Prompt : Option (GoMap AutoConfigVar)
  Auth : APIAuth
  deriving DecidableEq

/-- Modelled from the spec: the declaration of `API` (the description document:
its auto-config block and the list of authentication schemes it advertises)
is not part of `interactive.go`. -/
structure API where
  AutoConfig : AutoConfig
  Auth : List APIAuth
  deriving DecidableEq

/-- Modelled from the spec: the declaration of `APIProfile` (headers, query
parameters, optional owned auth block) is not part of `interactive.go`. -/
structure APIProfile where
  Headers : Option (GoMap String)
  Query : Option (GoMap String)
  Auth : Option APIAuth
  deriving DecidableEq

/-- Modelled from the spec: the declaration of `APIConfig` (name, base URI,
mapping of profile name to profile) is not part of `interactive.go`. -/
structure APIConfig where
  name : String
  Base : String
  Profiles : Option (GoMap APIProfile)
  deriving DecidableEq

/-- Go: the zero value `APIAuth{}`. -/
def APIAuth.zero : APIAuth := ⟨"", none⟩

/-- Go: the zero value `APIProfile{}`. -/
def APIProfile.zero : APIProfile := ⟨none, none, none⟩

/-! ## The asker -/

/-- One call of the asker, with its arguments. -/
inductive Call where
  | confirm (message : String) (dflt : Bool) (help : String)
  | input (message dflt : String) (required : Bool) (help : String)
  | select (message : String) (options : List String) (dflt : Option String) (help : String)
  deriving DecidableEq, Repr

/-- Go: `type asker interface`.  Every method gets the calls made so far; for
`askSelect` the default is an interface value, nil or a string. -/
structure Asker where
  askConfirm : List Call → String → Bool → String → Bool
  askInput : List Call → String → String → Bool → String → String
  askSelect : List Call → String → List String → Option String → String → String

/-- The external loader: Go `Load(config.Base, dummy)`, the description of the
API at a base URI or an error. -/
abbrev Loader := String → Except String API

/-! ## The auto-configuration resolver -/

/-- The iteration orders of the `range` statements over maps in
`askLoadBaseAPI`, one per statement; the rendering loop runs once per template
parameter and may visit the answers in a different order each time. -/
structure RangeOrders where
  prompt : RangeOrder
  responses : RangeOrder
  template : RangeOrder
  render : String → RangeOrder
  copy : RangeOrder

/-- All maps are visited in the order they are stored. -/
def RangeOrders.stored : RangeOrders :=
  ⟨RangeOrder.stored, RangeOrder.stored, RangeOrder.stored, fun _ => RangeOrder.stored,
    RangeOrder.stored⟩

/-- Go: the options built for a prompt with choices,
`for val := range v.Enum { enumStr = append(enumStr, fmt.Sprintf("%v", val)) }`.
A `range` with one variable over a slice binds the index. -/
def enumStr (v : AutoConfigVar) : List String :=
  (List.range v.Enum.length).map (fun val => toString val)

/-- Go: `def := ""; if v.Default != nil { def = fmt.Sprintf("%v", v.Default) }`. -/
def defaultStr (v : AutoConfigVar) : String :=
  match v.Default with
  | none => ""
  | some d => d.sprint

/-- The body of `for name, v := range ac.Prompt` (lines 92-107): ask for one
prompt and store the answer under its name. -/
def askPrompt (a : Asker) (st : GoMap String × List Call)
    (e : Sigma fun _ : String => AutoConfigVar) : GoMap String × List Call :=
  if e.2.Enum.length > 0 then
    (st.1.insert e.1 (a.askSelect st.2 e.1 (enumStr e.2) (some (defaultStr e.2)) e.2.Description),
      st.2 ++ [Call.select e.1 (enumStr e.2) (some (defaultStr e.2)) e.2.Description])
  else
    (st.1.insert e.1 (a.askInput st.2 e.1 (defaultStr e.2) e.2.Default.isNone e.2.Description),
      st.2 ++ [Call.input e.1 (defaultStr e.2) e.2.Default.isNone e.2.Description])

/-- Lines 89-107: `responses := map[string]string{}` filled by asking every
prompt; returns the answers and the calls made. -/
def askPrompts (ord : RangeOrder) (a : Asker) (log : List Call)
    (prompt : Option (GoMap AutoConfigVar)) : GoMap String × List Call :=
  (rangeOver ord prompt).foldl (askPrompt a) (∅, log)

/-- Lines 116-121: render one template,
`for rn, rv := range responses { rendered = strings.ReplaceAll(rendered, "{"+rn+"}", rv) }`. -/
def render (ord : RangeOrder) (responses : GoMap String) (template : String) : String :=
  (ord.f responses.entries).foldl (fun rendered e => ReplaceAll rendered (placeholder e.1) e.2)
    template

/-- Lines 109-124: the parameter map, the answers first and then every
rendered template of the auth template. -/
def genParams (o : RangeOrders) (responses : GoMap String)
    (templates : Option (GoMap String)) : GoMap String :=
  (rangeOver o.template templates).foldl
    (fun params e => params.insert e.1 (render (o.render e.1) responses e.2))
    ((o.responses.f responses.entries).foldl (fun params e => params.insert e.1 e.2) ∅)

/-- Lines 79-137: the auth block resolved from the description of the API, and
the calls made: the auto-configuration when it names a scheme, else the first
advertised scheme, else the zero auth block. -/
def resolveAuth (o : RangeOrders) (a : Asker) (log : List Call) (api : API) :
    APIAuth × List Call :=
  let r : APIAuth × List Call :=
    if api.AutoConfig.Auth.Name ≠ "" then
      let asked := askPrompts o.prompt a log api.AutoConfig.Prompt
      (⟨api.AutoConfig.Auth.Name, some (genParams o asked.1 api.AutoConfig.Auth.Params)⟩, asked.2)
    else (APIAuth.zero, log)
  if r.1.Name = "" ∧ api.Auth.length > 0 then
    match api.Auth with
    | first :: _ => (first, r.2)
    | [] => r
  else r

/-- Lines 152-162: the auth block of the default profile after the merge. -/
def mergeAuth (ord : RangeOrder) (old : Option APIAuth) (auth : APIAuth) : APIAuth :=
  let cur := match old with
    | none => APIAuth.zero
    | some b => b
  if auth.Name ≠ "" then ⟨auth.Name, some (copyMap ord auth.Params)⟩ else cur

/-- Lines 139-162: set up the default profile from the resolved auth block. -/
def setupDefault (ord : RangeOrder) (config : APIConfig) (auth : APIAuth) : APIConfig :=
  let profiles : GoMap APIProfile := match config.Profiles with
    | none => ∅
    | some ps => ps
  match profiles.lookup "default" with
  | some d =>
    { config with Profiles := some (profiles.replace "default" { d with Auth := some (mergeAuth ord d.Auth auth) }) }
  | none =>
    { config with Profiles := some (profiles.insert "default"
        { APIProfile.zero with Auth := some (mergeAuth ord none auth) }) }

/-- Go: `func askLoadBaseAPI(a asker, config *APIConfig)`.  Returns the
configuration as the call leaves it and the asker calls made so far. -/
def askLoadBaseAPI (Load : Loader) (o : RangeOrders) (a : Asker) (log : List Call)
    (config : APIConfig) : APIConfig × List Call :=
  match Load config.Base with
  | Except.error _ => (config, log)
  | Except.ok api =>
    let r := resolveAuth o a log api
    (setupDefault o.copy config r.1, r.2)

/-- The default profile of a configuration, if there is one. -/
def defaultProfile (config : APIConfig) : Option APIProfile :=
  mapGet config.Profiles "default"

/-- The answer stored for a prompt (lines 98-106) when the calls made before it
are `h`: the reply to `askSelect` when the prompt has choices, else the reply
to `askInput`. -/
def promptAnswer (a : Asker) (h : List Call) (name : String) (v : AutoConfigVar) : String :=
  if v.Enum.length > 0 then a.askSelect h name (enumStr v) (some (defaultStr v)) v.Description
  else a.askInput h name (defaultStr v) v.Default.isNone v.Description

/-! ## Templates as token sequences -/

/-- A piece of a template: one character of literal text, or a placeholder
`{name}`. -/
inductive Tok where
  | lit (c : Char)
  | ph (name : String)
  deriving DecidableEq, Repr

/-- The text of a token. -/
def Tok.chars : Tok → List Char
  | Tok.lit c => [c]
  | Tok.ph name => (placeholder name).data

/-- The text of a sequence of tokens. -/
def tokChars : List Tok → List Char
  | [] => []
  | t :: ts => t.chars ++ tokChars ts

/-- The template string a sequence of tokens spells. -/
def tokString (ts : List Tok) : String := ⟨tokChars ts⟩

/-- A name without braces. -/
def BraceFree (name : String) : Prop := '\x7b' ∉ name.data ∧ '\x7d' ∉ name.data

/-- A token of a plain template: literal text is not an opening brace, and the
name of a placeholder has no brace in it. -/
def Tok.Plain : Tok → Prop
  | Tok.lit c => c ≠ '\x7b'
  | Tok.ph name => BraceFree name

/-- Replace every placeholder that `f` gives a value for by the characters of
that value, as literal text; everything else stays. -/
def substWith (f : String → Option String) : List Tok → List Tok
  | [] => []
  | Tok.lit c :: ts => Tok.lit c :: substWith f ts
  | Tok.ph name :: ts =>
    match f name with
    | some v => v.data.map Tok.lit ++ substWith f ts
    | none => Tok.ph name :: substWith f ts

/-- The scan of one simultaneous pass over a template: at each position of the
original text, if the placeholder of an answered name starts there, its answer
is written and the scan continues behind the placeholder; otherwise the
character is copied.  What has been written is never looked at again. -/
def singlePassFrom (answers : List (Sigma fun _ : String => String)) :
    Nat → List Char → List Char
  | _, [] => []
  | skip + 1, _ :: s => singlePassFrom answers skip s
  | 0, c :: s =>
    match answers.find? (fun e => (placeholder e.1).data.isPrefixOf (c :: s)) with
    | some e => e.2.data ++ singlePassFrom answers (e.1.data.length + 1) s
    | none => c :: singlePassFrom answers 0 s

/-- The rendering the specification describes: every `{name}` of the original
template with an answered name is replaced by its answer in one simultaneous
pass, the substituted values are not scanned again.  Where the placeholders of
several answered names start at the same position, the first one stored is
taken. -/
def renderSinglePass (responses : GoMap String) (template : String) : String :=
  ⟨singlePassFrom responses.entries 0 template.data⟩

instance (name : String) : Decidable (BraceFree name) :=
  inferInstanceAs (Decidable ('\x7b' ∉ name.data ∧ '\x7d' ∉ name.data))

instance : DecidablePred Tok.Plain := fun t =>
  match t with
  | Tok.lit c => inferInstanceAs (Decidable (c ≠ '\x7b'))
  | Tok.ph name => inferInstanceAs (Decidable (BraceFree name))

/-- A plain template: literal text without an opening brace, and placeholders
whose names have no brace. -/
def PlainTemplate (ts : List Tok) : Prop := ∀ t ∈ ts, t.Plain

instance (ts : List Tok) : Decidable (PlainTemplate ts) :=
  inferInstanceAs (Decidable (∀ t ∈ ts, t.Plain))

/-- No answered name has a brace in it. -/
def PlainNames (responses : GoMap String) : Prop := ∀ e ∈ responses.entries, BraceFree e.1

instance (responses : GoMap String) : Decidable (PlainNames responses) :=
  inferInstanceAs (Decidable (∀ e ∈ responses.entries, BraceFree e.1))

/-- No answer has an opening brace in it. -/
def PlainValues (responses : GoMap String) : Prop :=
  ∀ e ∈ responses.entries, '\x7b' ∉ e.2.data

instance (responses : GoMap String) : Decidable (PlainValues responses) :=
  inferInstanceAs (Decidable (∀ e ∈ responses.entries, '\x7b' ∉ e.2.data))

/-- The literal text of a string, as tokens. -/
def lits (s : String) : List Tok := s.data.map Tok.lit

/-- The asker answers every prompt of the resolver by its name alone. -/
def AnswersByName (a : Asker) (ans : String → String) : Prop :=
  (∀ h name options dflt help, a.askSelect h name options dflt help = ans name) ∧
    ∀ h name dflt required help, a.askInput h name dflt required help = ans name

/-- An auto-configuration block that is plain for the answers `ans`: no prompt
name has a brace, no answer has an opening brace, and every parameter template
is a plain template. -/
def PlainAutoConfig (ac : AutoConfig) (ans : String → String) : Prop :=
  (∀ k v, mapGet ac.Prompt k = some v → BraceFree k ∧ '\x7b' ∉ (ans k).data) ∧
    ∀ k t, mapGet ac.Auth.Params k = some t → ∃ ts, PlainTemplate ts ∧ t = tokString ts

/-- The auth block of the default profile, if any. -/
def defaultAuth (config : APIConfig) : Option APIAuth :=
  (defaultProfile config).bind (fun p => p.Auth)

/-- Two auth blocks are the same: both absent, or the same name and the same
parameter map (nil or not, and the same value under every key). -/
def SameAuth : Option APIAuth → Option APIAuth → Prop
  | none, none => True
  | some x, some y =>
    x.Name = y.Name ∧ x.Params.isSome = y.Params.isSome ∧
      ∀ k, mapGet x.Params k = mapGet y.Params k
  | _, _ => False

/-! ## Example data -/

/-- An asker that accepts every default. -/
def acceptDefaults : Asker :=
  ⟨fun _ _ dflt _ => dflt, fun _ _ dflt _ _ => dflt, fun _ _ _ dflt _ => dflt.getD ""⟩

/-- An asker that gives the same answer to every question. -/
def constAsker (v : String) : Asker :=
  ⟨fun _ _ dflt _ => dflt, fun _ _ _ _ _ => v, fun _ _ _ _ _ => v⟩

/-- An asker that answers `{b}` to the prompt `a` and `x` to every other. -/
def chainAsker : Asker :=
  ⟨fun _ _ dflt _ => dflt, fun _ name _ _ _ => if name = "a" then "\x7bb\x7d" else "x",
    fun _ name _ _ _ => if name = "a" then "\x7bb\x7d" else "x"⟩

/-- A description with auto-configuration: one prompt `region` with choices
`us`, `eu` and default `us`, scheme `bearer` with one parameter template. -/
def regionAPI : API :=
  ⟨⟨some (AList.singleton "region" ⟨"Region", some ⟨"us"⟩, [⟨"us"⟩, ⟨"eu"⟩]⟩),
      ⟨"bearer", some (AList.singleton "endpoint" "https://\x7bregion\x7d.api.example.com")⟩⟩,
    []⟩

/-- The tokens of the parameter template of `regionAPI`. -/
def regionTemplate : List Tok :=
  lits "https://" ++ [Tok.ph "region"] ++ lits ".api.example.com"

/-- A description without auto-configuration that advertises one scheme. -/
def advertisedAPI : API :=
  ⟨⟨none, APIAuth.zero⟩, [⟨"oauth-client-credentials", some (AList.singleton "client_id" "abc")⟩]⟩

/-- A description without auto-configuration and without schemes. -/
def plainAPI : API := ⟨⟨none, APIAuth.zero⟩, []⟩

/-- A description whose auto-configuration asks for `a` and `b` and has the
parameter template `token = {a}`. -/
def chainAPI : API :=
  ⟨⟨some (AList.insert "a" ⟨"", none, []⟩ (AList.singleton "b" ⟨"", none, []⟩)),
      ⟨"bearer", some (AList.singleton "token" "\x7ba\x7d")⟩⟩, []⟩

/-- A configuration whose default profile has a header, a query parameter and
a manually entered auth block. -/
def manualConfig : APIConfig :=
  ⟨"example", "https://api.example.com",
    some (AList.singleton "default"
      ⟨some (AList.singleton "X-Key" "1"), some (AList.singleton "page" "2"),
        some ⟨"http-basic", some (AList.singleton "username" "alice")⟩⟩)⟩

/-- A configuration whose default profile has a header and no auth block. -/
def headerConfig : APIConfig :=
  ⟨"example", "https://api.example.com",
    some (AList.singleton "default" ⟨some (AList.singleton "X-Key" "1"), none, none⟩)⟩

/-- A configuration without profiles. -/
def freshConfig : APIConfig := ⟨"example", "https://api.example.com", some ∅⟩

/-- The answer `code = abc`. -/
def codeAnswers : GoMap String := AList.singleton "code" "abc"

/-- Answers of which one is the placeholder of another: `a = {b}`, `b = x`. -/
def chainAnswers : GoMap String := AList.insert "a" "\x7bb\x7d" (AList.singleton "b" "x")

/-- Answers without braces: `a = b`, `b = x`. -/
def nestedAnswers : GoMap String := AList.insert "a" "b" (AList.singleton "b" "x")

/-- The rendering loop visits the answers in reverse, all else as stored. -/
def RangeOrders.reversedRender : RangeOrders :=
  ⟨RangeOrder.stored, RangeOrder.stored, RangeOrder.stored, fun _ => RangeOrder.reversed,
    RangeOrder.stored⟩

/-! ## The menu-driven editors -/

/-- Go: `strings.HasPrefix(s, prefix)`. -/
def HasPrefix (s p : String) : Bool := p.data.isPrefixOf s.data

/-- Go: `explode(s, n)` of package strings, what `SplitN` does with an empty
separator: the characters one by one, the last piece holding the rest when
there are more than `n`. -/
def explode : Nat → List Char → List (List Char)
  | _, [] => []
  | 0, _ :: _ => []
  | 1, c :: s => [c :: s]
  | n + 2, c :: s => [c] :: explode (n + 1) s

/-- The scan of `strings.SplitN` with a non-empty separator: `n` is the number
of cuts still allowed, `skip` the number of characters of the separator just
found that are still to be skipped, `cur` the piece being read. -/
def splitFrom (sep : List Char) : Nat → Nat → List Char → List Char → List (List Char)
  | _, _, cur, [] => [cur]
  | n, skip + 1, cur, _ :: s => splitFrom sep n skip cur s
  | 0, 0, cur, c :: s => [cur ++ c :: s]
  | n + 1, 0, cur, c :: s =>
    if sep.isPrefixOf (c :: s) then cur :: splitFrom sep n (sep.length - 1) [] s
    else splitFrom sep (n + 1) 0 (cur ++ [c]) s

/-- Go: `strings.SplitN(s, sep, n)` for `n ≥ 0`: at most `n` pieces, the last
one the unsplit remainder. -/
def SplitN (s sep : String) (n : Nat) : List String :=
  if n = 0 then []
  else if sep.data = [] then (explode n s.data).map String.mk
  else (splitFrom sep.data (n - 1) 0 [] s.data).map String.mk

/-- The outcome of a function with loops that may panic: it returned, it
panicked, or its loops were not over when the bound on their rounds was
reached. -/
inductive Res (α : Type) where
  | ok (val : α)
  | panic
  | more
  deriving DecidableEq, Repr

/-- Continue with `f` when `r` returned. -/
def Res.bind {α β : Type} (r : Res α) (f : α → Res β) : Res β :=
  match r with
  | Res.ok x => f x
  | Res.panic => Res.panic
  | Res.more => Res.more

/-- Modelled from the spec: the declaration of `AuthParam`, what an auth
handler's `Parameters()` lists (name, required flag, help text), is not part
of `interactive.go`. -/
structure AuthParam where
  Name : String
  Help : String
  Required : Bool
  deriving DecidableEq, Repr

/-- What surrounds the editors: the loader, the registry `authHandlers` (each
handler given by what its `Parameters()` returns), and the order in which each
`range` over a map visits it, which may depend on the calls made so far. -/
structure Runtime where
  Load : Loader
  authHandlers : GoMap (List AuthParam)
  resolver : List Call → RangeOrders
  authTypes : List Call → RangeOrder
  editHeader : List Call → RangeOrder
  deleteHeader : List Call → RangeOrder
  editQuery : List Call → RangeOrder
  deleteQuery : List Call → RangeOrder
  profiles : List Call → RangeOrder

/-- Go: `m[k]` read from a map of strings, the empty string when absent. -/
def mapStr (m : Option (GoMap String)) (k : String) : String := (mapGet m k).getD ""

/-- Go: `m[k] = v`; assignment to an entry of a nil map panics. -/
def mapSet (m : Option (GoMap String)) (k v : String) : Res (Option (GoMap String)) :=
  match m with
  | none => Res.panic
  | some m => Res.ok (some (m.insert k v))

/-- Go: `delete(m, k)`; a no-op on a nil map. -/
def mapDelete (m : Option (GoMap String)) (k : String) : Option (GoMap String) :=
  match m with
  | none => none
  | some m => some (m.erase k)

/-! ### askAuth -/

/-- The body of `for _, p := range authHandlers[choice].Parameters()` (line
188): ask for one declared parameter, seeded with its previous value. -/
def askParam (a : Asker) (prev : Option (GoMap String)) (st : GoMap String × List Call)
    (p : AuthParam) : GoMap String × List Call :=
  (st.1.insert p.Name (a.askInput st.2 ("Auth parameter " ++ p.Name) (mapStr prev p.Name)
      p.Required p.Help),
    st.2 ++ [Call.input ("Auth parameter " ++ p.Name) (mapStr prev p.Name) p.Required p.Help])

/-- Lines 191-199: offer to add extra parameters until the user declines;
`fuel` bounds the number of rounds. -/
def askExtras (a : Asker) (prev : Option (GoMap String)) :
    Nat → GoMap String → List Call → Res (GoMap String × List Call)
  | 0, _, _ => Res.more
  | fuel + 1, params, log =>
    let log1 := log ++ [Call.confirm "Add additional auth param?" false ""]
    if a.askConfirm log "Add additional auth param?" false "" then
      let k := a.askInput log1 "Param key" "" true ""
      let log2 := log1 ++ [Call.input "Param key" "" true ""]
      let v := a.askInput log2 "Param value" (mapStr prev k) true ""
      askExtras a prev fuel (params.insert k v)
        (log2 ++ [Call.input "Param value" (mapStr prev k) true ""])
    else Res.ok (params, log1)

/-- The options of the scheme prompt (lines 167-170): the registered names. -/
def authTypes (rt : Runtime) (log : List Call) : List String :=
  ((rt.authTypes log).f rt.authHandlers.entries).map (fun e => e.1)

/-- The call of the scheme prompt (lines 172-176), seeded with the current
name when there is one. -/
def authTypeCall (rt : Runtime) (log : List Call) (auth : APIAuth) : Call :=
  Call.select "API auth type" (authTypes rt log) (if auth.Name ≠ "" then some auth.Name else none)
    "This is how you authenticate with the API. Autodetected if possible."

/-- The scheme the user chooses (line 176). -/
def authChoice (rt : Runtime) (a : Asker) (log : List Call) (auth : APIAuth) : String :=
  a.askSelect log "API auth type" (authTypes rt log)
    (if auth.Name ≠ "" then some auth.Name else none)
    "This is how you authenticate with the API. Autodetected if possible."

/-- Go: `func askAuth(a asker, auth *APIAuth)`.  Returns the auth block as the
call leaves it.  Calling `Parameters()` of a scheme that is not registered is
a method call on a nil interface, a panic. -/
def askAuth (rt : Runtime) (fuel : Nat) (a : Asker) (log : List Call) (auth : APIAuth) :
    Res (APIAuth × List Call) :=
  match rt.authHandlers.lookup (authChoice rt a log auth) with
  | none => Res.panic
  | some ps =>
    (askExtras a auth.Params fuel
        (ps.foldl (askParam a auth.Params) (∅, log ++ [authTypeCall rt log auth])).1
        (ps.foldl (askParam a auth.Params) (∅, log ++ [authTypeCall rt log auth])).2).bind
      (fun r => Res.ok (⟨authChoice rt a log auth, some r.1⟩, r.2))

/-! ### askEditProfile -/

/-- The options of the profile menu (lines 212-232), from the maps as they are
when the menu is shown. -/
def editOptions (rt : Runtime) (log : List Call) (profile : APIProfile) : List String :=
  ["Add header"] ++
    (rangeOver (rt.editHeader log) profile.Headers).map (fun e => "Edit header " ++ e.1) ++
    (rangeOver (rt.deleteHeader log) profile.Headers).map (fun e => "Delete header " ++ e.1) ++
    ["Add query param"] ++
    (rangeOver (rt.editQuery log) profile.Query).map (fun e => "Edit query param " ++ e.1) ++
    (rangeOver (rt.deleteQuery log) profile.Query).map (fun e => "Delete query param " ++ e.1) ++
    ["Setup auth", "Finished with profile"]

/-- The message of the profile menu (line 234). -/
def menuMessage (name : String) : String := "Select option for profile \x60" ++ name ++ "\x60"

/-- The call that shows the profile menu. -/
def menuCall (rt : Runtime) (name : String) (profile : APIProfile) (log : List Call) : Call :=
  Call.select (menuMessage name) (editOptions rt log profile) none ""

/-- The option the user selects in the profile menu. -/
def menuChoice (rt : Runtime) (a : Asker) (name : String) (profile : APIProfile)
    (log : List Call) : String :=
  a.askSelect log (menuMessage name) (editOptions rt log profile) none ""

/-- One round of the loop of `askEditProfile` (lines 212-268): show the menu
and carry out the action selected.  Returns the profile, the calls made, and
whether the loop is over.  Indexing the split option out of range panics. -/
def editStep (rt : Runtime) (fuel : Nat) (a : Asker) (name : String) (profile : APIProfile)
    (log : List Call) : Res (APIProfile × List Call × Bool) :=
  let choice := menuChoice rt a name profile log
  let log1 := log ++ [menuCall rt name profile log]
  if choice = "Add header" then
    let key := a.askInput log1 "Header name" "" true ""
    let log2 := log1 ++ [Call.input "Header name" "" true ""]
    (mapSet profile.Headers key (a.askInput log2 "Header value" "" false "")).bind
      (fun hs => Res.ok ({ profile with Headers := hs },
        log2 ++ [Call.input "Header value" "" false ""], false))
  else if HasPrefix choice "Edit header" then
    match (SplitN choice " " 3)[2]? with
    | none => Res.panic
    | some h =>
      let key := a.askInput log1 "Header name" h true ""
      let log2 := log1 ++ [Call.input "Header name" h true ""]
      (mapSet profile.Headers key
          (a.askInput log2 "Header value" (mapStr profile.Headers key) false "")).bind
        (fun hs => Res.ok ({ profile with Headers := hs },
          log2 ++ [Call.input "Header value" (mapStr profile.Headers key) false ""], false))
  else if HasPrefix choice "Delete header" then
    match (SplitN choice " " 3)[2]? with
    | none => Res.panic
    | some h =>
      if a.askConfirm log1 ("Are you sure you want to delete the " ++ h ++ " header?") false ""
      then Res.ok ({ profile with Headers := mapDelete profile.Headers h },
        log1 ++ [Call.confirm ("Are you sure you want to delete the " ++ h ++ " header?")
          false ""], false)
      else Res.ok (profile,
        log1 ++ [Call.confirm ("Are you sure you want to delete the " ++ h ++ " header?")
          false ""], false)
  else if choice = "Add query param" then
    let key := a.askInput log1 "Query param name" "" true ""
    let log2 := log1 ++ [Call.input "Query param name" "" true ""]
    (mapSet profile.Query key (a.askInput log2 "Query param value" "" false "")).bind
      (fun qs => Res.ok ({ profile with Query := qs },
        log2 ++ [Call.input "Query param value" "" false ""], false))
  else if HasPrefix choice "Edit query param" then
    match (SplitN choice " " 4)[3]? with
    | none => Res.panic
    | some q =>
      let key := a.askInput log1 "Query param name" q true ""
      let log2 := log1 ++ [Call.input "Query param name" q true ""]
      (mapSet profile.Headers key
          (a.askInput log2 "Query param value" (mapStr profile.Query key) false "")).bind
        (fun hs => Res.ok ({ profile with Headers := hs },
          log2 ++ [Call.input "Query param value" (mapStr profile.Query key) false ""], false))
  else if HasPrefix choice "Delete query param" then
    match (SplitN choice " " 4)[3]? with
    | none => Res.panic
    | some q =>
      if a.askConfirm log1 ("Are you sure you want to delete the " ++ q ++ " query param?")
        false ""
      then Res.ok ({ profile with Query := mapDelete profile.Query q },
        log1 ++ [Call.confirm ("Are you sure you want to delete the " ++ q ++ " query param?")
          false ""], false)
      else Res.ok (profile,
        log1 ++ [Call.confirm ("Are you sure you want to delete the " ++ q ++ " query param?")
          false ""], false)
  else if choice = "Setup auth" then
    (askAuth rt fuel a log1 (match profile.Auth with
        | none => APIAuth.zero
        | some b => b)).bind
      (fun r => Res.ok ({ profile with Auth := some r.1 }, r.2, false))
  else if choice = "Finished with profile" then Res.ok (profile, log1, true)
  else Res.ok (profile, log1, false)

/-- The loop of `askEditProfile` (line 211); `fuel` bounds the number of
rounds, and of the rounds of the loops inside. -/
def editLoop (rt : Runtime) (a : Asker) (name : String) :
    Nat → APIProfile → List Call → Res (APIProfile × List Call)
  | 0, _, _ => Res.more
  | fuel + 1, profile, log =>
    (editStep rt fuel a name profile log).bind
      (fun r => if r.2.2 then Res.ok (r.1, r.2.1) else editLoop rt a name fuel r.1 r.2.1)

/-- Lines 203-209: nil header and query maps are replaced by empty ones. -/
def initMaps (profile : APIProfile) : APIProfile :=
  { profile with
    Headers := some (match profile.Headers with
      | none => ∅
      | some hs => hs)
    Query := some (match profile.Query with
      | none => ∅
      | some qs => qs) }

/-- Go: `func askEditProfile(a asker, name string, profile *APIProfile)`.
Returns the profile as the call leaves it. -/
def askEditProfile (rt : Runtime) (fuel : Nat) (a : Asker) (name : String)
    (profile : APIProfile) (log : List Call) : Res (APIProfile × List Call) :=
  editLoop rt a name fuel (initMaps profile) log

/-! ### The session -/

/-- Go: `func askAddProfile(a asker, config *APIConfig)`. -/
def askAddProfile (rt : Runtime) (fuel : Nat) (a : Asker) (log : List Call)
    (config : APIConfig) : Res (APIConfig × List Call) :=
  let name := a.askInput log "Profile name" "default" true ""
  let profiles : GoMap APIProfile := match config.Profiles with
    | none => ∅
    | some ps => ps
  (askEditProfile rt fuel a name APIProfile.zero
      (log ++ [Call.input "Profile name" "default" true ""])).bind
    (fun r => Res.ok ({ config with Profiles := some (profiles.insert name r.1) }, r.2))

/-- The help text of the base URI prompt (line 73). -/
def baseHelp : String :=
  "The entrypoint of the API, where Restish can look for an API description document and apply authentication.\nExample: https://api.example.com"

/-- Go: `func askBaseURI(a asker, config *APIConfig)`. -/
def askBaseURI (rt : Runtime) (a : Asker) (log : List Call) (config : APIConfig) :
    APIConfig × List Call :=
  askLoadBaseAPI rt.Load (rt.resolver (log ++ [Call.input "Base URI" config.Base true baseHelp]))
    a (log ++ [Call.input "Base URI" config.Base true baseHelp])
    { config with Base := a.askInput log "Base URI" config.Base true baseHelp }

/-- The options of the session menu (lines 307-316). -/
def initOptions (rt : Runtime) (log : List Call) (config : APIConfig) : List String :=
  ["Change base URI (" ++ config.Base ++ ")", "Add profile"] ++
    (rangeOver (rt.profiles log) config.Profiles).map (fun e => "Edit profile " ++ e.1) ++
    ["Save and exit"]

/-- The loop of `askInitAPI` (lines 306-332); returns the configuration that
`config.Save()` is called on.  Editing a profile that is not in the map
dereferences a nil pointer, a panic. -/
def initLoop (rt : Runtime) (a : Asker) :
    Nat → APIConfig → List Call → Res (APIConfig × List Call)
  | 0, _, _ => Res.more
  | fuel + 1, config, log =>
    let choice := a.askSelect log "Select option" (initOptions rt log config) none ""
    let log1 := log ++ [Call.select "Select option" (initOptions rt log config) none ""]
    if HasPrefix choice "Change base URI" then
      initLoop rt a fuel (askBaseURI rt a log1 config).1 (askBaseURI rt a log1 config).2
    else if choice = "Add profile" then
      (askAddProfile rt fuel a log1 config).bind (fun r => initLoop rt a fuel r.1 r.2)
    else if HasPrefix choice "Edit profile" then
      match (SplitN choice " " 3)[2]? with
      | none => Res.panic
      | some profile =>
        match config.Profiles with
        | none => Res.panic
        | some ps =>
          match ps.lookup profile with
          | none => Res.panic
          | some p =>
            (askEditProfile rt fuel a profile p log1).bind
              (fun r => initLoop rt a fuel
                { config with Profiles := some (ps.replace profile r.1) } r.2)
    else if choice = "Save and exit" then Res.ok (config, log1)
    else initLoop rt a fuel config log1

/-- Lines 286-304: the first setup of an API that has no configuration yet. -/
def firstSetup (rt : Runtime) (fuel : Nat) (a : Asker) (log : List Call) (name : String)
    (rest : List String) : Res (APIConfig × List Call) :=
  let r : APIConfig × List Call :=
    match rest with
    | [] => askBaseURI rt a log ⟨name, "", some ∅⟩
    | base :: _ => askLoadBaseAPI rt.Load (rt.resolver log) a log ⟨name, base, some ∅⟩
  match r.1.Profiles with
  | none => Res.panic
  | some ps =>
    match ps.lookup "default" with
    | some _ => Res.ok r
    | none =>
      (askEditProfile rt fuel a "default" APIProfile.zero r.2).bind
        (fun e => Res.ok ({ r.1 with Profiles := some (ps.insert "default" e.1) }, e.2))

/-- Go: `func askInitAPI(a asker, cmd *cobra.Command, args []string)`, with the
global `configs` passed in.  Returns `configs` as the call leaves it, the calls
made and the configuration saved.  `args[0]` of an empty `args` panics. -/
def askInitAPI (rt : Runtime) (fuel : Nat) (a : Asker) (log : List Call)
    (configs : GoMap APIConfig) (args : List String) :
    Res (GoMap APIConfig × List Call × APIConfig) :=
  match args with
  | [] => Res.panic
  | name :: rest =>
    match configs.lookup name with
    | some config =>
      (initLoop rt a fuel config log).bind
        (fun r => Res.ok (configs.replace name r.1, r.2, r.1))
    | none =>
      (firstSetup rt fuel a log name rest).bind (fun s =>
        (initLoop rt a fuel s.1 s.2).bind
          (fun r => Res.ok (configs.insert name r.1, r.2, r.1)))

/-- The value a function returned, if it returned. -/
def Res.val? {α : Type} : Res α → Option α
  | Res.ok x => some x
  | Res.panic => none
  | Res.more => none

/-! ## Example data for the editors -/

/-- A runtime whose loader fails, with the scheme `http-basic` registered, and
every map visited in the order it is stored. -/
def plainRuntime : Runtime :=
  ⟨fun _ => Except.error "unreachable",
    AList.singleton "http-basic" [⟨"username", "", true⟩, ⟨"password", "", true⟩],
    fun _ => RangeOrders.stored, fun _ => RangeOrder.stored, fun _ => RangeOrder.stored,
    fun _ => RangeOrder.stored, fun _ => RangeOrder.stored, fun _ => RangeOrder.stored,
    fun _ => RangeOrder.stored⟩

/-- A profile with the header `X-Key = 1` and the query parameter `page = 2`. -/
def keyProfile : APIProfile :=
  ⟨some (AList.singleton "X-Key" "1"), some (AList.singleton "page" "2"), none⟩

/-- The number of menus shown so far. -/
def menusShown (log : List Call) : Nat :=
  (log.filter (fun c => match c with
    | Call.select _ _ _ _ => true
    | _ => false)).length

/-- The number of confirmations asked so far. -/
def confirmsAsked (log : List Call) : Nat :=
  (log.filter (fun c => match c with
    | Call.confirm _ _ _ => true
    | _ => false)).length

/-- An asker that selects the options of `selects` one after the other (and
`Save and exit` when they are used up), answers the prompts listed in
`inputs` by their message and accepts the default of every other prompt, and
answers the confirmations with `confirms` one after the other (and with false
when they are used up). -/
def scriptAsker (selects : List String) (inputs : List (String × String))
    (confirms : List Bool) : Asker :=
  ⟨fun log _ _ _ => (confirms.get? (confirmsAsked log)).getD false,
    fun _ message dflt _ _ => (inputs.lookup message).getD dflt,
    fun log _ _ _ _ => (selects.get? (menusShown log)).getD "Save and exit"⟩

/-! ## What the user enters in the auth editor -/

/-- The extra parameters the user enters in the first `fuel` rounds of the loop
of lines 191-199 when it starts after the calls `log`, key and value, in the
order entered.  Not part of the code: it names the answers of the asker. -/
def extrasEntered (a : Asker) (prev : Option (GoMap String)) :
    Nat → List Call → List (String × String)
  | 0, _ => []
  | fuel + 1, log =>
    let log1 := log ++ [Call.confirm "Add additional auth param?" false ""]
    if a.askConfirm log "Add additional auth param?" false "" then
      let k := a.askInput log1 "Param key" "" true ""
      let log2 := log1 ++ [Call.input "Param key" "" true ""]
      let v := a.askInput log2 "Param value" (mapStr prev k) true ""
      (k, v) :: extrasEntered a prev fuel
        (log2 ++ [Call.input "Param value" (mapStr prev k) true ""])
    else []

/-- The value entered last for a key among the extra parameters. -/
def lastEntered (extras : List (String × String)) (k : String) : Option String :=
  extras.reverse.lookup k

/-- The parameter map and the calls made when the declared parameters of a
scheme have been asked for (lines 184-189). -/
def askDeclared (rt : Runtime) (a : Asker) (log : List Call) (auth : APIAuth)
    (ps : List AuthParam) : GoMap String × List Call :=
  ps.foldl (askParam a auth.Params) (∅, log ++ [authTypeCall rt log auth])

/-- The extra parameters the user enters in a call of `askAuth`, within `fuel`
rounds. -/
def authExtras (rt : Runtime) (fuel : Nat) (a : Asker) (log : List Call) (auth : APIAuth) :
    List (String × String) :=
  match rt.authHandlers.lookup (authChoice rt a log auth) with
  | none => []
  | some ps => extrasEntered a auth.Params fuel (askDeclared rt a log auth ps).2

/-- The base URI of a first setup (lines 291-296): the second argument when
there is one, else the answer to the base URI prompt. -/
def sessionBase (a : Asker) (log : List Call) (rest : List String) : String :=
  match rest with
  | [] => a.askInput log "Base URI" "" true baseHelp
  | base :: _ => base

/-- The calls made when the base URI of a first setup is known. -/
def sessionLog (log : List Call) (rest : List String) : List Call :=
  match rest with
  | [] => log ++ [Call.input "Base URI" "" true baseHelp]
  | _ :: _ => log

/-- A configuration with the single profile `default`. -/
def defaultOnly (name base : String) (profile : APIProfile) : APIConfig :=
  ⟨name, base, some (AList.insert "default" profile ∅)⟩

/-- An asker that leaves every profile menu with `Finished with profile`,
answers the session menu with `Save and exit` and accepts every default. -/
def quietAsker : Asker :=
  ⟨fun _ _ dflt _ => dflt, fun _ _ dflt _ _ => dflt,
    fun _ message _ _ _ =>
      if message = "Select option" then "Save and exit" else "Finished with profile"⟩

/-- The runtime `plainRuntime` with a loader that finds the description
`plainAPI` everywhere. -/
def foundRuntime : Runtime := { plainRuntime with Load := fun _ => Except.ok plainAPI }

/-- An asker that answers the first session menu, shown before any other call,
with `first` and every later session menu with `Save and exit`, leaves every
profile menu with `Finished with profile` and accepts every default. -/
def firstThenSave (first : String) : Asker :=
  ⟨fun _ _ dflt _ => dflt, fun _ _ dflt _ _ => dflt,
    fun log message _ _ _ =>
      if message = "Select option" then (if log.isEmpty then first else "Save and exit")
      else "Finished with profile"⟩

/-- A configuration whose only profile, `my profile`, has the header
`X Key = 1`: both keys contain a space. -/
def spacedConfig : APIConfig :=
  ⟨"example", "https://api.example.com",
    some (AList.singleton "my profile"
      (⟨some (AList.singleton "X Key" "1"), some ∅, none⟩ : APIProfile))⟩

/-! ## Properties of the resolver -/

open List

theorem dlookup_range {V : Type} (ord : RangeOrder) (m : GoMap V) (k : String) :
    dlookup k (ord.f m.entries) = m.lookup k :=
  perm_dlookup k ((perm_nodupKeys (ord.perm m.entries)).2 m.nodupKeys) m.nodupKeys
    (ord.perm m.entries)

theorem nodupKeys_rangeOver {V : Type} (ord : RangeOrder) (m : Option (GoMap V)) :
    (rangeOver ord m).NodupKeys := by
  cases m with
  | none => exact nodupKeys_nil
  | some m => exact (perm_nodupKeys (ord.perm m.entries)).2 m.nodupKeys

theorem dlookup_rangeOver {V : Type} (ord : RangeOrder) (m : Option (GoMap V)) (k : String) :
    dlookup k (rangeOver ord m) = mapGet m k := by
  cases m with
  | none => rfl
  | some m => exact dlookup_range ord m k

theorem lookup_foldl_insert {V W : Type} (g : (Sigma fun _ : String => V) → W) (k : String) :
    ∀ (l : List (Sigma fun _ : String => V)) (m0 : GoMap W), l.NodupKeys →
      (l.foldl (fun p e => p.insert e.1 (g e)) m0).lookup k =
        match dlookup k l with
        | some v => some (g ⟨k, v⟩)
        | none => m0.lookup k
  | [], m0, _ => rfl
  | ⟨k', v'⟩ :: t, m0, h => by
    have ht := (nodupKeys_cons.1 h).2
    have hk' := (nodupKeys_cons.1 h).1
    rw [List.foldl_cons, lookup_foldl_insert g k t _ ht]
    by_cases hkk : k' = k
    · subst hkk
      rw [dlookup_cons_eq, dlookup_eq_none.2 hk']
      exact AList.lookup_insert _
    · rw [dlookup_cons_ne _ _ (fun h => hkk h.symm)]
      cases dlookup k t with
      | some v => rfl
      | none => exact AList.lookup_insert_ne (fun h => hkk h.symm)

theorem lookup_copyMap (ord : RangeOrder) (src : Option (GoMap String)) (k : String) :
    (copyMap ord src).lookup k = mapGet src k := by
  unfold copyMap
  rw [lookup_foldl_insert (fun e => e.2) k _ _ (nodupKeys_rangeOver ord src), dlookup_rangeOver]
  cases mapGet src k <;> rfl

theorem replace_lookup_self {V : Type} (m : GoMap V) (k : String) (v : V)
    (h : m.lookup k = some v) : m.replace k v = m := by
  apply AList.ext
  obtain ⟨l, hl⟩ := m
  simp only [AList.replace, AList.lookup] at h ⊢
  clear hl
  induction l with
  | nil => rfl
  | cons e t ih =>
    obtain ⟨k', v'⟩ := e
    by_cases hkk : k = k'
    · subst hkk
      rw [dlookup_cons_eq] at h
      cases h
      simp [kreplace, lookmap_cons_some]
    · rw [dlookup_cons_ne _ _ hkk] at h
      have := ih h
      simp only [kreplace] at this ⊢
      rw [lookmap_cons_none _ _ (by simp [hkk]), this]

theorem lookup_replace_self {V : Type} (m : GoMap V) (k : String) (v w : V)
    (h : m.lookup k = some v) : (m.replace k w).lookup k = some w := by
  obtain ⟨l, hl⟩ := m
  simp only [AList.replace, AList.lookup] at h ⊢
  clear hl
  induction l with
  | nil => simp at h
  | cons e t ih =>
    obtain ⟨k', v'⟩ := e
    by_cases hkk : k = k'
    · subst hkk
      simp [kreplace, lookmap_cons_some]
    · rw [dlookup_cons_ne _ _ hkk] at h
      have := ih h
      simp only [kreplace] at this ⊢
      rw [lookmap_cons_none _ _ (by simp [hkk]), dlookup_cons_ne _ _ hkk, this]

theorem resolveAuth_of_empty (o : RangeOrders) (a : Asker) (log : List Call) (api : API)
    (hac : api.AutoConfig.Auth.Name = "") :
    resolveAuth o a log api =
      (match api.Auth with
        | first :: _ => first
        | [] => APIAuth.zero, log) := by
  unfold resolveAuth
  simp only [hac, ne_eq, not_true_eq_false, if_false]
  cases h : api.Auth with
  | nil => simp [APIAuth.zero]
  | cons first rest => simp [APIAuth.zero]

theorem resolveAuth_of_named (o : RangeOrders) (a : Asker) (log : List Call) (api : API)
    (hac : api.AutoConfig.Auth.Name ≠ "") :
    resolveAuth o a log api =
      (⟨api.AutoConfig.Auth.Name,
          some (genParams o (askPrompts o.prompt a log api.AutoConfig.Prompt).1
            api.AutoConfig.Auth.Params)⟩,
        (askPrompts o.prompt a log api.AutoConfig.Prompt).2) := by
  unfold resolveAuth
  simp [hac]

theorem defaultProfile_setupDefault (ord : RangeOrder) (config : APIConfig) (auth : APIAuth) :
    defaultProfile (setupDefault ord config auth) =
      some { (defaultProfile config).getD APIProfile.zero with
        Auth := some (mergeAuth ord ((defaultProfile config).getD APIProfile.zero).Auth auth) } := by
  unfold setupDefault defaultProfile
  cases hp : config.Profiles with
  | none =>
    simp only [mapGet, AList.lookup_empty, AList.lookup_insert, APIProfile.zero, Option.getD]
  | some ps =>
    simp only [mapGet]
    cases hd : AList.lookup "default" ps with
    | none => simp [mapGet, AList.lookup_insert, APIProfile.zero]
    | some d => simp [mapGet, lookup_replace_self ps "default" d _ hd]

theorem setupDefault_of_empty (ord : RangeOrder) (config : APIConfig) (auth : APIAuth)
    (d : APIProfile) (b : APIAuth) (hd : defaultProfile config = some d) (hb : d.Auth = some b)
    (hname : auth.Name = "") : setupDefault ord config auth = config := by
  unfold defaultProfile at hd
  unfold setupDefault
  cases hp : config.Profiles with
  | none => rw [hp] at hd; simp [mapGet] at hd
  | some ps =>
    rw [hp] at hd
    simp only [mapGet] at hd
    simp only [hd, mergeAuth, hname, hb, ne_eq, not_true_eq_false, if_false]
    have hdd : ({ d with Auth := some b } : APIProfile) = d := by
      cases d; simp_all
    rw [hdd, replace_lookup_self ps "default" d hd, ← hp]

/-- C1: when `Load` succeeds and neither the auto-configuration nor the first
advertised scheme names a scheme, a default profile that already has an auth
block keeps it, name and parameters; the whole configuration is left as it was
and no question is asked. -/
theorem askLoadBaseAPI_nondestructive (Load : Loader) (o : RangeOrders) (a : Asker)
    (log : List Call) (config : APIConfig) (api : API) (d : APIProfile) (b : APIAuth)
    (hload : Load config.Base = Except.ok api) (hd : defaultProfile config = some d)
    (hb : d.Auth = some b) (hac : api.AutoConfig.Auth.Name = "")
    (hadv : api.Auth = [] ∨ ∃ first rest, api.Auth = first :: rest ∧ first.Name = "") :
    askLoadBaseAPI Load o a log config = (config, log) ∧
      (defaultProfile (askLoadBaseAPI Load o a log config).1).bind (fun p => p.Auth) = some b := by
  have hres : (resolveAuth o a log api).1.Name = "" ∧ (resolveAuth o a log api).2 = log := by
    rw [resolveAuth_of_empty o a log api hac]
    rcases hadv with h | ⟨first, rest, h, hf⟩
    · rw [h]; exact ⟨rfl, rfl⟩
    · rw [h]; exact ⟨hf, rfl⟩
  have hrun : askLoadBaseAPI Load o a log config = (config, log) := by
    unfold askLoadBaseAPI
    rw [hload]
    simp only
    rw [setupDefault_of_empty o.copy config _ d b hd hb hres.1, hres.2]
  refine ⟨hrun, ?_⟩
  rw [hrun, hd]
  exact hb

theorem askLoadBaseAPI_nondestructive_witness :
    askLoadBaseAPI (fun _ => Except.ok plainAPI) RangeOrders.stored acceptDefaults [] manualConfig
        = (manualConfig, []) ∧
      (defaultProfile (askLoadBaseAPI (fun _ => Except.ok plainAPI) RangeOrders.stored
        acceptDefaults [] manualConfig).1).bind (fun p => p.Auth)
        = some ⟨"http-basic", some (AList.singleton "username" "alice")⟩ :=
  askLoadBaseAPI_nondestructive (fun _ => Except.ok plainAPI) RangeOrders.stored acceptDefaults []
    manualConfig plainAPI _ _ rfl rfl rfl rfl (Or.inl rfl)

theorem mergeAuth_of_empty (ord : RangeOrder) (old : Option APIAuth) (auth : APIAuth)
    (h : auth.Name = "") : mergeAuth ord old auth = old.getD APIAuth.zero := by
  unfold mergeAuth
  cases old <;> simp [h]

theorem mergeAuth_of_named (ord : RangeOrder) (old : Option APIAuth) (auth : APIAuth)
    (h : auth.Name ≠ "") :
    mergeAuth ord old auth = ⟨auth.Name, some (copyMap ord auth.Params)⟩ := by
  unfold mergeAuth
  simp [h]

theorem defaultProfile_askLoadBaseAPI (Load : Loader) (o : RangeOrders) (a : Asker)
    (log : List Call) (config : APIConfig) (api : API)
    (hload : Load config.Base = Except.ok api) :
    defaultProfile (askLoadBaseAPI Load o a log config).1 =
      some ⟨((defaultProfile config).getD APIProfile.zero).Headers,
        ((defaultProfile config).getD APIProfile.zero).Query,
        some (mergeAuth o.copy ((defaultProfile config).getD APIProfile.zero).Auth
          (resolveAuth o a log api).1)⟩ := by
  unfold askLoadBaseAPI
  rw [hload]
  exact defaultProfile_setupDefault _ _ _

theorem askLoadBaseAPI_named_aux (Load : Loader) (o : RangeOrders) (a : Asker)
    (log : List Call) (config : APIConfig) (api : API)
    (hload : Load config.Base = Except.ok api)
    (hname : (resolveAuth o a log api).1.Name ≠ "") :
    ∃ d' params, defaultProfile (askLoadBaseAPI Load o a log config).1 = some d' ∧
      d'.Auth = some ⟨(resolveAuth o a log api).1.Name, some params⟩ ∧
      ∀ k, params.lookup k = mapGet (resolveAuth o a log api).1.Params k :=
  ⟨_, copyMap o.copy (resolveAuth o a log api).1.Params,
    defaultProfile_askLoadBaseAPI Load o a log config api hload,
    congrArg some (mergeAuth_of_named _ _ _ hname), lookup_copyMap _ _⟩

/-- C2, the claim as stated fails: a default profile that has a header and no
auth block is changed by a resolution that names no scheme, the profile gets
an empty auth block. -/
theorem askLoadBaseAPI_creates_auth_block :
    (resolveAuth RangeOrders.stored acceptDefaults [] plainAPI).1.Name = "" ∧
      (defaultProfile headerConfig).bind (fun p => p.Auth) = none ∧
      (defaultProfile (askLoadBaseAPI (fun _ => Except.ok plainAPI) RangeOrders.stored
        acceptDefaults [] headerConfig).1).bind (fun p => p.Auth) = some APIAuth.zero ∧
      defaultProfile (askLoadBaseAPI (fun _ => Except.ok plainAPI) RangeOrders.stored
        acceptDefaults [] headerConfig).1 ≠ defaultProfile headerConfig := by
  refine ⟨rfl, rfl, rfl, ?_⟩
  intro h
  have h2 := congrArg (fun p => Option.bind p (fun q => q.Auth)) h
  exact absurd h2 (by
    show (some APIAuth.zero : Option APIAuth) ≠ none
    exact Option.some_ne_none _)

/-- C2, amended: when `Load` fails, `askLoadBaseAPI` leaves the configuration as
it was.  When `Load` succeeds, the default profile afterwards has the header
map and the query map it had before (those of a new profile when there was
none), and its auth block is: when the resolved scheme name is empty, the
block it had, or an empty block when it had none; when the resolved scheme
name is not empty, that name with a copy of the resolved parameters. -/
theorem askLoadBaseAPI_frame (Load : Loader) (o : RangeOrders) (a : Asker) (log : List Call)
    (config : APIConfig) :
    match Load config.Base with
    | Except.error _ => (askLoadBaseAPI Load o a log config).1 = config
    | Except.ok api =>
      ∃ d', defaultProfile (askLoadBaseAPI Load o a log config).1 = some d' ∧
        d'.Headers = ((defaultProfile config).getD APIProfile.zero).Headers ∧
        d'.Query = ((defaultProfile config).getD APIProfile.zero).Query ∧
        (((resolveAuth o a log api).1.Name = "" ∧
            d'.Auth = some
              (((defaultProfile config).getD APIProfile.zero).Auth.getD APIAuth.zero)) ∨
          ((resolveAuth o a log api).1.Name ≠ "" ∧
            d'.Auth = some ⟨(resolveAuth o a log api).1.Name,
              some (copyMap o.copy (resolveAuth o a log api).1.Params)⟩)) := by
  cases hload : Load config.Base with
  | error e =>
    simp only
    unfold askLoadBaseAPI
    rw [hload]
  | ok api =>
    simp only
    refine ⟨_, defaultProfile_askLoadBaseAPI Load o a log config api hload, rfl, rfl, ?_⟩
    by_cases hn : (resolveAuth o a log api).1.Name = ""
    · exact Or.inl ⟨hn, congrArg some (mergeAuth_of_empty _ _ _ hn)⟩
    · exact Or.inr ⟨hn, congrArg some (mergeAuth_of_named _ _ _ hn)⟩

/-- C4: when `Load` succeeds and the resolved scheme name is not empty, the auth
block of the default profile afterwards has that name, and its parameter map
holds under every key exactly what the resolved parameter map holds under it:
resolved keys with their resolved values, and no other key. -/
theorem askLoadBaseAPI_replaces_params (Load : Loader) (o : RangeOrders) (a : Asker)
    (log : List Call) (config : APIConfig) (api : API)
    (hload : Load config.Base = Except.ok api)
    (hname : (resolveAuth o a log api).1.Name ≠ "") :
    ∃ d' params, defaultProfile (askLoadBaseAPI Load o a log config).1 = some d' ∧
      d'.Auth = some ⟨(resolveAuth o a log api).1.Name, some params⟩ ∧
      ∀ k, params.lookup k = mapGet (resolveAuth o a log api).1.Params k := by
  refine ⟨⟨((defaultProfile config).getD APIProfile.zero).Headers,
      ((defaultProfile config).getD APIProfile.zero).Query,
      some (mergeAuth o.copy ((defaultProfile config).getD APIProfile.zero).Auth
        (resolveAuth o a log api).1)⟩,
    copyMap o.copy (resolveAuth o a log api).1.Params, ?_, ?_, ?_⟩
  · exact defaultProfile_askLoadBaseAPI Load o a log config api hload
  · exact congrArg some (mergeAuth_of_named _ _ _ hname)
  · intro k
    exact lookup_copyMap _ _ k

theorem askLoadBaseAPI_replaces_params_witness :
    (∃ d' params, defaultProfile (askLoadBaseAPI (fun _ => Except.ok advertisedAPI)
        RangeOrders.stored acceptDefaults [] manualConfig).1 = some d' ∧
      d'.Auth = some ⟨(resolveAuth RangeOrders.stored acceptDefaults [] advertisedAPI).1.Name,
        some params⟩ ∧
      ∀ k, params.lookup k =
        mapGet (resolveAuth RangeOrders.stored acceptDefaults [] advertisedAPI).1.Params k) ∧
    (defaultAuth manualConfig).bind (fun b => mapGet b.Params "username") = some "alice" ∧
    (defaultAuth (askLoadBaseAPI (fun _ => Except.ok advertisedAPI) RangeOrders.stored
      acceptDefaults [] manualConfig).1).bind (fun b => mapGet b.Params "username") = none ∧
    (defaultAuth (askLoadBaseAPI (fun _ => Except.ok advertisedAPI) RangeOrders.stored
      acceptDefaults [] manualConfig).1).bind (fun b => mapGet b.Params "client_id") =
      some "abc" :=
  ⟨askLoadBaseAPI_replaces_params (fun _ => Except.ok advertisedAPI) RangeOrders.stored
    acceptDefaults [] manualConfig advertisedAPI rfl (by decide), by decide, by decide, by decide⟩

/-- C9: when `Load` succeeds, the auto-configuration names no scheme and the
first advertised scheme has a name, `askLoadBaseAPI` makes no asker call and
leaves the default profile with an auth block of that name whose parameter map
holds under every key exactly what the parameter map of that scheme holds. -/
theorem askLoadBaseAPI_fallback (Load : Loader) (o : RangeOrders) (a : Asker)
    (log : List Call) (config : APIConfig) (api : API) (first : APIAuth) (rest : List APIAuth)
    (hload : Load config.Base = Except.ok api) (hac : api.AutoConfig.Auth.Name = "")
    (hadv : api.Auth = first :: rest) (hfirst : first.Name ≠ "") :
    (askLoadBaseAPI Load o a log config).2 = log ∧
      ∃ d' params, defaultProfile (askLoadBaseAPI Load o a log config).1 = some d' ∧
        d'.Auth = some ⟨first.Name, some params⟩ ∧
        ∀ k, params.lookup k = mapGet first.Params k := by
  have hres : resolveAuth o a log api = (first, log) := by
    rw [resolveAuth_of_empty o a log api hac, hadv]
  have hname : (resolveAuth o a log api).1.Name ≠ "" := by rw [hres]; exact hfirst
  obtain ⟨d', params, h1, h2, h3⟩ :=
    askLoadBaseAPI_named_aux Load o a log config api hload hname
  rw [hres] at h2 h3
  refine ⟨?_, d', params, h1, h2, h3⟩
  unfold askLoadBaseAPI
  rw [hload]
  simp only [hres]

theorem askLoadBaseAPI_fallback_witness :
    (askLoadBaseAPI (fun _ => Except.ok advertisedAPI) RangeOrders.stored acceptDefaults []
        headerConfig).2 = [] ∧
      ∃ d' params, defaultProfile (askLoadBaseAPI (fun _ => Except.ok advertisedAPI)
          RangeOrders.stored acceptDefaults [] headerConfig).1 = some d' ∧
        d'.Auth = some ⟨"oauth-client-credentials", some params⟩ ∧
        ∀ k, params.lookup k = mapGet (some (AList.singleton "client_id" "abc")) k :=
  askLoadBaseAPI_fallback (fun _ => Except.ok advertisedAPI) RangeOrders.stored acceptDefaults []
    headerConfig advertisedAPI _ [] rfl rfl rfl (by decide)

/-- C10: when `Load` returns an error, `askLoadBaseAPI` returns normally with
the configuration exactly as it was (base URI, profile map, every profile) and
without any asker call. -/
theorem askLoadBaseAPI_load_error (Load : Loader) (o : RangeOrders) (a : Asker)
    (log : List Call) (config : APIConfig) (e : String)
    (hload : Load config.Base = Except.error e) :
    askLoadBaseAPI Load o a log config = (config, log) := by
  unfold askLoadBaseAPI
  rw [hload]

theorem askLoadBaseAPI_load_error_witness :
    askLoadBaseAPI (fun _ => Except.error "unreachable") RangeOrders.stored acceptDefaults []
      freshConfig = (freshConfig, []) :=
  askLoadBaseAPI_load_error (fun _ => Except.error "unreachable") RangeOrders.stored
    acceptDefaults [] freshConfig "unreachable" rfl

theorem askPrompt_fst (a : Asker) (st : GoMap String × List Call)
    (e : Sigma fun _ : String => AutoConfigVar) :
    (askPrompt a st e).1 = st.1.insert e.1 (promptAnswer a st.2 e.1 e.2) := by
  unfold askPrompt promptAnswer
  split <;> rfl

theorem askPrompt_log_extends (a : Asker) (st : GoMap String × List Call)
    (e : Sigma fun _ : String => AutoConfigVar) : st.2 <+: (askPrompt a st e).2 := by
  unfold askPrompt
  split <;> exact prefix_append _ _

theorem foldl_askPrompt_log_extends (a : Asker) :
    ∀ (l : List (Sigma fun _ : String => AutoConfigVar)) (st : GoMap String × List Call),
      st.2 <+: (l.foldl (askPrompt a) st).2
  | [], _ => prefix_refl _
  | e :: t, st => by
    rw [foldl_cons]
    exact (askPrompt_log_extends a st e).trans (foldl_askPrompt_log_extends a t _)

theorem foldl_askPrompt_lookup_of_not_mem (a : Asker) (k : String) :
    ∀ (l : List (Sigma fun _ : String => AutoConfigVar)) (st : GoMap String × List Call),
      dlookup k l = none → (l.foldl (askPrompt a) st).1.lookup k = st.1.lookup k
  | [], _, _ => rfl
  | ⟨k', v'⟩ :: t, st, h => by
    have hne : k ≠ k' := by
      intro hkk
      subst hkk
      rw [dlookup_cons_eq] at h
      exact Option.some_ne_none _ h
    rw [dlookup_cons_ne _ _ hne] at h
    rw [foldl_cons, foldl_askPrompt_lookup_of_not_mem a k t _ h, askPrompt_fst]
    exact AList.lookup_insert_ne hne

theorem foldl_askPrompt_lookup (a : Asker) (k : String) (v : AutoConfigVar) :
    ∀ (l : List (Sigma fun _ : String => AutoConfigVar)) (st : GoMap String × List Call),
      l.NodupKeys → dlookup k l = some v →
      ∃ h, st.2 <+: h ∧ (l.foldl (askPrompt a) st).1.lookup k = some (promptAnswer a h k v)
  | [], _, _, h => by simp at h
  | ⟨k', v'⟩ :: t, st, hnd, h => by
    have ht := (nodupKeys_cons.1 hnd).2
    have hk' := (nodupKeys_cons.1 hnd).1
    rw [foldl_cons]
    by_cases hkk : k = k'
    · subst hkk
      rw [dlookup_cons_eq] at h
      cases h
      refine ⟨st.2, prefix_refl _, ?_⟩
      rw [foldl_askPrompt_lookup_of_not_mem a k t _ (dlookup_eq_none.2 hk'), askPrompt_fst]
      exact AList.lookup_insert _
    · rw [dlookup_cons_ne _ _ hkk] at h
      obtain ⟨h', hp, hl⟩ := foldl_askPrompt_lookup a k v t (askPrompt a st ⟨k', v'⟩) ht h
      exact ⟨h', (askPrompt_log_extends a st _).trans hp, hl⟩

theorem askPrompts_lookup (ord : RangeOrder) (a : Asker) (log : List Call)
    (prompt : Option (GoMap AutoConfigVar)) (k : String) (v : AutoConfigVar)
    (hk : mapGet prompt k = some v) :
    ∃ h, log <+: h ∧ (askPrompts ord a log prompt).1.lookup k = some (promptAnswer a h k v) := by
  unfold askPrompts
  exact foldl_askPrompt_lookup a k v _ (∅, log) (nodupKeys_rangeOver ord prompt)
    (by rw [dlookup_rangeOver]; exact hk)

theorem askPrompts_lookup_none (ord : RangeOrder) (a : Asker) (log : List Call)
    (prompt : Option (GoMap AutoConfigVar)) (k : String) (hk : mapGet prompt k = none) :
    (askPrompts ord a log prompt).1.lookup k = none := by
  unfold askPrompts
  rw [foldl_askPrompt_lookup_of_not_mem a k _ (∅, log) (by rw [dlookup_rangeOver]; exact hk)]
  rfl

theorem askPrompts_isSome (ord : RangeOrder) (a : Asker) (log : List Call)
    (prompt : Option (GoMap AutoConfigVar)) (k : String) :
    ((askPrompts ord a log prompt).1.lookup k).isSome = (mapGet prompt k).isSome := by
  cases hk : mapGet prompt k with
  | none => rw [askPrompts_lookup_none ord a log prompt k hk]; rfl
  | some v =>
    obtain ⟨h, _, hl⟩ := askPrompts_lookup ord a log prompt k v hk
    rw [hl]; rfl

theorem lookup_genParams (o : RangeOrders) (responses : GoMap String)
    (templates : Option (GoMap String)) (k : String) :
    (genParams o responses templates).lookup k =
      match mapGet templates k with
      | some t => some (render (o.render k) responses t)
      | none => responses.lookup k := by
  unfold genParams
  rw [lookup_foldl_insert (fun e => render (o.render e.1) responses e.2) k _ _
    (nodupKeys_rangeOver o.template templates), dlookup_rangeOver]
  cases mapGet templates k with
  | some t => rfl
  | none =>
    simp only
    rw [lookup_foldl_insert (fun e => e.2) k _ _
      ((perm_nodupKeys (o.responses.perm responses.entries)).2 responses.nodupKeys),
      dlookup_range]
    cases AList.lookup k responses <;> rfl

/-- C3: when the auto-configuration names a scheme, the resolved auth block has
that name and a parameter map whose keys are exactly the prompt names and the
parameter names of the auth template; a template parameter holds its template
rendered against the answers (also when its name is a prompt name), and a
prompt name that is no template parameter holds the answer given to its
prompt.  For the prompt `region` answered `us` and the template
`endpoint = https://{region}.api.example.com` of scheme `bearer` the result is
`bearer` with `region = us` and `endpoint = https://us.api.example.com`. -/
theorem resolveAuth_params (o : RangeOrders) (a : Asker) (log : List Call) (api : API)
    (hname : api.AutoConfig.Auth.Name ≠ "") :
    (∃ params, (resolveAuth o a log api).1 = ⟨api.AutoConfig.Auth.Name, some params⟩ ∧
      (∀ k, (params.lookup k).isSome ↔
        (mapGet api.AutoConfig.Prompt k).isSome ∨ (mapGet api.AutoConfig.Auth.Params k).isSome) ∧
      (∀ k t, mapGet api.AutoConfig.Auth.Params k = some t →
        params.lookup k =
          some (render (o.render k) (askPrompts o.prompt a log api.AutoConfig.Prompt).1 t)) ∧
      (∀ k v, mapGet api.AutoConfig.Prompt k = some v →
        mapGet api.AutoConfig.Auth.Params k = none →
        ∃ h, log <+: h ∧ params.lookup k = some (promptAnswer a h k v) ∧
          (askPrompts o.prompt a log api.AutoConfig.Prompt).1.lookup k =
            some (promptAnswer a h k v))) ∧
    (resolveAuth RangeOrders.stored acceptDefaults [] regionAPI).1.Name = "bearer" ∧
    (resolveAuth RangeOrders.stored acceptDefaults [] regionAPI).1.Params.map AList.entries =
      some [⟨"endpoint", "https://us.api.example.com"⟩, ⟨"region", "us"⟩] := by
  refine ⟨⟨_, congrArg Prod.fst (resolveAuth_of_named o a log api hname), ?_, ?_, ?_⟩,
    by decide, by decide⟩
  · intro k
    rw [lookup_genParams]
    cases ht : mapGet api.AutoConfig.Auth.Params k with
    | some t => simp
    | none => simp [askPrompts_isSome]
  · intro k t ht
    rw [lookup_genParams, ht]
  · intro k v hk ht
    obtain ⟨h, hp, hl⟩ := askPrompts_lookup o.prompt a log api.AutoConfig.Prompt k v hk
    refine ⟨h, hp, ?_, hl⟩
    rw [lookup_genParams, ht]
    exact hl

theorem resolveAuth_params_witness :
    (∃ params, (resolveAuth RangeOrders.stored acceptDefaults [] regionAPI).1
        = ⟨regionAPI.AutoConfig.Auth.Name, some params⟩ ∧
      (∀ k, (params.lookup k).isSome ↔
        (mapGet regionAPI.AutoConfig.Prompt k).isSome ∨
          (mapGet regionAPI.AutoConfig.Auth.Params k).isSome) ∧
      (∀ k t, mapGet regionAPI.AutoConfig.Auth.Params k = some t →
        params.lookup k =
          some (render (RangeOrders.stored.render k)
            (askPrompts RangeOrders.stored.prompt acceptDefaults []
              regionAPI.AutoConfig.Prompt).1 t)) ∧
      (∀ k v, mapGet regionAPI.AutoConfig.Prompt k = some v →
        mapGet regionAPI.AutoConfig.Auth.Params k = none →
        ∃ h, [] <+: h ∧ params.lookup k = some (promptAnswer acceptDefaults h k v) ∧
          (askPrompts RangeOrders.stored.prompt acceptDefaults []
            regionAPI.AutoConfig.Prompt).1.lookup k =
            some (promptAnswer acceptDefaults h k v))) ∧
    (resolveAuth RangeOrders.stored acceptDefaults [] regionAPI).1.Name = "bearer" ∧
    (resolveAuth RangeOrders.stored acceptDefaults [] regionAPI).1.Params.map AList.entries =
      some [⟨"endpoint", "https://us.api.example.com"⟩, ⟨"region", "us"⟩] :=
  resolveAuth_params RangeOrders.stored acceptDefaults [] regionAPI (by decide)

/-! ## Properties of template rendering -/

theorem placeholder_data (rn : String) :
    (placeholder rn).data = '\x7b' :: (rn.data ++ ['\x7d']) := by
  simp [placeholder, String.data_append]

theorem replaceFrom_skip (old new : List Char) (hold : old ≠ []) :
    ∀ (k : Nat) (s : List Char), replaceFrom old new k s = replaceFrom old new 0 (s.drop k)
  | 0, s => by simp
  | k + 1, [] => by simp [replaceFrom, hold]
  | k + 1, c :: s => by
    rw [replaceFrom, drop_succ_cons]
    exact replaceFrom_skip old new hold k s

theorem replaceFrom_cons (old new : List Char) (hold : old ≠ []) (c : Char) (s : List Char) :
    replaceFrom old new 0 (c :: s) =
      if old.isPrefixOf (c :: s) then new ++ replaceFrom old new 0 ((c :: s).drop old.length)
      else c :: replaceFrom old new 0 s := by
  rw [replaceFrom]
  split
  · cases hl : old.length with
    | zero => exact absurd (length_eq_zero.1 hl) hold
    | succ n =>
      simp only
      rw [replaceFrom_skip old new hold n s, drop_succ_cons]
  · rfl

theorem replaceFrom_nil (old new : List Char) (hold : old ≠ []) :
    replaceFrom old new 0 [] = [] := by
  simp [replaceFrom, hold]

theorem isPrefixOf_cons_cons (a b : Char) (as bs : List Char) :
    (a :: as).isPrefixOf (b :: bs) = (a == b && as.isPrefixOf bs) := rfl

theorem isPrefixOf_self_append (p rest : List Char) : p.isPrefixOf (p ++ rest) = true := by
  induction p with
  | nil => simp [isPrefixOf]
  | cons c p ih => rw [cons_append, isPrefixOf_cons_cons, ih]; simp

theorem replaceFrom_match (old new : List Char) (hold : old ≠ []) (rest : List Char) :
    replaceFrom old new 0 (old ++ rest) = new ++ replaceFrom old new 0 rest := by
  cases hd : old with
  | nil => exact absurd hd hold
  | cons c s =>
    have hp := isPrefixOf_self_append (c :: s) rest
    rw [cons_append] at hp ⊢
    rw [replaceFrom_cons _ _ (cons_ne_nil _ _), if_pos hp, ← cons_append, drop_left]

theorem replaceFrom_no_match (old new : List Char) (hold : old ≠ []) (c : Char)
    (s : List Char) (hp : old.isPrefixOf (c :: s) = false) :
    replaceFrom old new 0 (c :: s) = c :: replaceFrom old new 0 s := by
  rw [replaceFrom_cons _ _ hold, hp]
  simp

theorem isPrefixOf_brace_cons (p : List Char) (c : Char) (s : List Char) (hc : c ≠ '\x7b') :
    ('\x7b' :: p).isPrefixOf (c :: s) = false := by
  rw [isPrefixOf_cons_cons]
  simp [Ne.symm hc]

theorem replaceFrom_copy (p new : List Char) :
    ∀ (x rest : List Char), '\x7b' ∉ x →
      replaceFrom ('\x7b' :: p) new 0 (x ++ rest) = x ++ replaceFrom ('\x7b' :: p) new 0 rest
  | [], _, _ => rfl
  | c :: x, rest, h => by
    have hc : c ≠ '\x7b' := fun e => h (by simp [e])
    have hx : '\x7b' ∉ x := fun e => h (mem_cons_of_mem _ e)
    rw [cons_append, replaceFrom_no_match _ _ (cons_ne_nil _ _) _ _
      (isPrefixOf_brace_cons p c _ hc), replaceFrom_copy p new x rest hx, cons_append]

theorem name_prefix_iff :
    ∀ (n m rest : List Char), '\x7d' ∉ n → '\x7d' ∉ m →
      ((n ++ ['\x7d']).isPrefixOf (m ++ '\x7d' :: rest) = true ↔ n = m)
  | [], [], rest, _, _ => by simp [isPrefixOf]
  | [], c :: m, rest, _, hm => by
    have hc : c ≠ '\x7d' := fun e => hm (by simp [e])
    rw [nil_append, cons_append, isPrefixOf_cons_cons]
    simp [Ne.symm hc]
  | d :: n, [], rest, hn, _ => by
    have hd : d ≠ '\x7d' := fun e => hn (by simp [e])
    rw [nil_append, cons_append, isPrefixOf_cons_cons]
    simp [hd]
  | d :: n, c :: m, rest, hn, hm => by
    have hn' : '\x7d' ∉ n := fun e => hn (mem_cons_of_mem _ e)
    have hm' : '\x7d' ∉ m := fun e => hm (mem_cons_of_mem _ e)
    have ih := name_prefix_iff n m rest hn' hm'
    rw [cons_append, cons_append, isPrefixOf_cons_cons, Bool.and_eq_true, ih]
    simp

theorem placeholder_prefix_iff (n m : String) (rest : List Char) (hn : '\x7d' ∉ n.data)
    (hm : '\x7d' ∉ m.data) :
    ((placeholder n).data.isPrefixOf ((placeholder m).data ++ rest) = true ↔ n = m) := by
  rw [placeholder_data, placeholder_data, cons_append, isPrefixOf_cons_cons, append_assoc,
    singleton_append, Bool.and_eq_true, name_prefix_iff _ _ _ hn hm]
  simp only [beq_self_eq_true, true_and]
  exact ⟨fun h => String.ext h, fun h => congrArg String.data h⟩

theorem placeholder_ne_nil (n : String) : (placeholder n).data ≠ [] := by
  rw [placeholder_data]; exact cons_ne_nil _ _

theorem tokChars_append (xs ys : List Tok) : tokChars (xs ++ ys) = tokChars xs ++ tokChars ys := by
  induction xs with
  | nil => rfl
  | cons t ts ih => simp [tokChars, ih]

theorem tokChars_lits (v : List Char) : tokChars (v.map Tok.lit) = v := by
  induction v with
  | nil => rfl
  | cons c v ih => simp [tokChars, Tok.chars, ih]

theorem replaceFrom_tokChars (n v : String) (hn : BraceFree n) :
    ∀ (ts : List Tok), (∀ t ∈ ts, t.Plain) →
      replaceFrom (placeholder n).data v.data 0 (tokChars ts) =
        tokChars (substWith (fun m => if n = m then some v else none) ts)
  | [], _ => replaceFrom_nil _ _ (placeholder_ne_nil n)
  | Tok.lit c :: ts, h => by
    have hc : c ≠ '\x7b' := h (Tok.lit c) (mem_cons_self _ _)
    have ih := replaceFrom_tokChars n v hn ts (fun t ht => h t (mem_cons_of_mem _ ht))
    rw [placeholder_data] at ih ⊢
    simp only [tokChars, Tok.chars, substWith, singleton_append]
    rw [replaceFrom_no_match _ _ (cons_ne_nil _ _) _ _ (isPrefixOf_brace_cons _ c _ hc), ih]
  | Tok.ph m :: ts, h => by
    have hm : BraceFree m := h (Tok.ph m) (mem_cons_self _ _)
    have ih := replaceFrom_tokChars n v hn ts (fun t ht => h t (mem_cons_of_mem _ ht))
    have hpre := placeholder_prefix_iff n m (tokChars ts) hn.2 hm.2
    simp only [tokChars, Tok.chars, substWith]
    by_cases hnm : n = m
    · subst hnm
      simp only [if_true]
      rw [tokChars_append, tokChars_lits, ← ih, replaceFrom_match _ _ (placeholder_ne_nil n)]
    · have hp : (placeholder n).data.isPrefixOf ((placeholder m).data ++ tokChars ts) = false := by
        cases hb : (placeholder n).data.isPrefixOf ((placeholder m).data ++ tokChars ts) with
        | false => rfl
        | true => exact absurd (hpre.1 hb) hnm
      simp only [hnm, if_false, tokChars, Tok.chars]
      rw [← ih]
      rw [placeholder_data m] at hp ⊢
      rw [cons_append] at hp ⊢
      rw [replaceFrom_no_match _ _ (placeholder_ne_nil n) _ _ hp]
      have hfree : '\x7b' ∉ m.data ++ ['\x7d'] := by
        intro e
        rcases mem_append.1 e with e | e
        · exact hm.1 e
        · simp at e
      rw [placeholder_data n, replaceFrom_copy _ _ _ _ hfree, cons_append]

theorem substWith_plain (f : String → Option String)
    (hf : ∀ m v, f m = some v → '\x7b' ∉ v.data) :
    ∀ (ts : List Tok), (∀ t ∈ ts, t.Plain) → ∀ t ∈ substWith f ts, t.Plain
  | [], _, t, ht => by simp [substWith] at ht
  | Tok.lit c :: ts, h, t, ht => by
    simp only [substWith, mem_cons] at ht
    rcases ht with ht | ht
    · subst ht; exact h _ (mem_cons_self _ _)
    · exact substWith_plain f hf ts (fun t ht => h t (mem_cons_of_mem _ ht)) t ht
  | Tok.ph m :: ts, h, t, ht => by
    have ih := substWith_plain f hf ts (fun t ht => h t (mem_cons_of_mem _ ht))
    simp only [substWith] at ht
    cases hfm : f m with
    | none =>
      rw [hfm] at ht
      simp only [mem_cons] at ht
      rcases ht with ht | ht
      · subst ht; exact h _ (mem_cons_self _ _)
      · exact ih t ht
    | some v =>
      rw [hfm] at ht
      simp only [mem_append, mem_map] at ht
      rcases ht with ⟨c, hc, rfl⟩ | ht
      · intro e
        exact hf m v hfm (e ▸ hc)
      · exact ih t ht

theorem substWith_congr (f g : String → Option String) (h : ∀ m, f m = g m) :
    ∀ (ts : List Tok), substWith f ts = substWith g ts
  | [] => rfl
  | Tok.lit c :: ts => by simp only [substWith, substWith_congr f g h ts]
  | Tok.ph m :: ts => by simp only [substWith, substWith_congr f g h ts, h m]

theorem substWith_lits (g : String → Option String) (v : List Char) :
    substWith g (v.map Tok.lit) = v.map Tok.lit := by
  induction v with
  | nil => rfl
  | cons c v ih => simp only [map_cons, substWith, ih]

theorem substWith_append (g : String → Option String) (xs ys : List Tok) :
    substWith g (xs ++ ys) = substWith g xs ++ substWith g ys := by
  induction xs with
  | nil => rfl
  | cons t xs ih =>
    cases t with
    | lit c =>
      rw [cons_append]
      simp only [substWith]
      rw [ih, cons_append]
    | ph m =>
      rw [cons_append]
      simp only [substWith]
      rw [ih]
      cases g m with
      | none => rfl
      | some v => simp only [append_assoc]

theorem substWith_none (ts : List Tok) : substWith (fun _ => none) ts = ts := by
  induction ts with
  | nil => rfl
  | cons t ts ih =>
    cases t with
    | lit c => simp only [substWith, ih]
    | ph m => simp only [substWith, ih]

theorem substWith_substWith (f g : String → Option String) :
    ∀ (ts : List Tok),
      substWith g (substWith f ts) =
        substWith (fun m => match f m with
          | some v => some v
          | none => g m) ts
  | [] => rfl
  | Tok.lit c :: ts => by simp only [substWith, substWith_substWith f g ts]
  | Tok.ph m :: ts => by
    simp only [substWith]
    cases hfm : f m with
    | none => simp only [substWith, substWith_substWith f g ts]
    | some v => simp only [substWith_append, substWith_lits, substWith_substWith f g ts]

theorem ReplaceAll_tokString (n v : String) (hn : BraceFree n) (ts : List Tok)
    (h : ∀ t ∈ ts, t.Plain) :
    ReplaceAll (tokString ts) (placeholder n) v =
      tokString (substWith (fun m => if n = m then some v else none) ts) := by
  unfold ReplaceAll tokString
  rw [replaceFrom_tokChars n v hn ts h]

/-- Rendering a plain template answer by answer is the substitution of the
first answer listed for each placeholder. -/
theorem foldl_ReplaceAll_tokString :
    ∀ (l : List (Sigma fun _ : String => String)) (ts : List Tok),
      (∀ e ∈ l, BraceFree e.1) → (∀ e ∈ l, '\x7b' ∉ e.2.data) → (∀ t ∈ ts, t.Plain) →
      l.foldl (fun rendered e => ReplaceAll rendered (placeholder e.1) e.2) (tokString ts) =
        tokString (substWith (fun m => dlookup m l) ts)
  | [], ts, _, _, _ => by
    rw [foldl_nil]
    simp only [dlookup_nil]
    rw [substWith_none]
  | ⟨n, v⟩ :: l, ts, hn, hv, hts => by
    rw [foldl_cons, ReplaceAll_tokString n v (hn _ (mem_cons_self _ _)) ts hts,
      foldl_ReplaceAll_tokString l _ (fun e he => hn e (mem_cons_of_mem _ he))
        (fun e he => hv e (mem_cons_of_mem _ he))
        (substWith_plain _ (fun m w hw => by
          split at hw
          · cases hw; exact hv _ (mem_cons_self _ _)
          · cases hw) ts hts),
      substWith_substWith]
    congr 1
    apply substWith_congr
    intro m
    by_cases hnm : n = m
    · subst hnm; simp
    · simp only [hnm, if_false]
      exact (dlookup_cons_ne l ⟨n, v⟩ (fun e => hnm e.symm)).symm

theorem singlePassFrom_skip (l : List (Sigma fun _ : String => String)) :
    ∀ (k : Nat) (s : List Char), singlePassFrom l k s = singlePassFrom l 0 (s.drop k)
  | 0, s => by simp
  | k + 1, [] => by simp [singlePassFrom]
  | k + 1, c :: s => by
    rw [singlePassFrom, drop_succ_cons]
    exact singlePassFrom_skip l k s

theorem find?_placeholder_of_ne (l : List (Sigma fun _ : String => String)) (c : Char)
    (s : List Char) (hc : c ≠ '\x7b') :
    l.find? (fun e => (placeholder e.1).data.isPrefixOf (c :: s)) = none := by
  rw [find?_eq_none]
  intro e _
  rw [placeholder_data, isPrefixOf_brace_cons _ c s hc]
  simp

theorem singlePassFrom_copy (l : List (Sigma fun _ : String => String)) :
    ∀ (x rest : List Char), '\x7b' ∉ x →
      singlePassFrom l 0 (x ++ rest) = x ++ singlePassFrom l 0 rest
  | [], _, _ => rfl
  | c :: x, rest, h => by
    have hc : c ≠ '\x7b' := fun e => h (by simp [e])
    have hx : '\x7b' ∉ x := fun e => h (mem_cons_of_mem _ e)
    rw [cons_append, singlePassFrom, find?_placeholder_of_ne l c _ hc]
    simp only
    rw [singlePassFrom_copy l x rest hx, cons_append]

theorem find?_placeholder (m : String) (rest : List Char) (hm : '\x7d' ∉ m.data) :
    ∀ (l : List (Sigma fun _ : String => String)), (∀ e ∈ l, '\x7d' ∉ e.1.data) →
      l.find? (fun e => (placeholder e.1).data.isPrefixOf ((placeholder m).data ++ rest)) =
        (dlookup m l).map (fun v => ⟨m, v⟩)
  | [], _ => rfl
  | ⟨n, v⟩ :: l, h => by
    have ih := find?_placeholder m rest hm l (fun e he => h e (mem_cons_of_mem _ he))
    have hpre := placeholder_prefix_iff n m rest (h ⟨n, v⟩ (mem_cons_self _ _)) hm
    by_cases hnm : n = m
    · subst hnm
      have hb : (placeholder n).data.isPrefixOf ((placeholder n).data ++ rest) = true := hpre.2 rfl
      rw [find?_cons, dlookup_cons_eq]
      simp only [hb, Option.map_some']
    · have hb : (placeholder n).data.isPrefixOf ((placeholder m).data ++ rest) = false := by
        cases hb : (placeholder n).data.isPrefixOf ((placeholder m).data ++ rest) with
        | false => rfl
        | true => exact absurd (hpre.1 hb) hnm
      rw [find?_cons, dlookup_cons_ne l ⟨n, v⟩ (fun e => hnm e.symm)]
      simp only [hb]
      exact ih

theorem singlePassFrom_tokChars (l : List (Sigma fun _ : String => String))
    (hl : ∀ e ∈ l, '\x7d' ∉ e.1.data) :
    ∀ (ts : List Tok), (∀ t ∈ ts, t.Plain) →
      singlePassFrom l 0 (tokChars ts) = tokChars (substWith (fun m => dlookup m l) ts)
  | [], _ => rfl
  | Tok.lit c :: ts, h => by
    have hc : c ≠ '\x7b' := h (Tok.lit c) (mem_cons_self _ _)
    have ih := singlePassFrom_tokChars l hl ts (fun t ht => h t (mem_cons_of_mem _ ht))
    simp only [tokChars, Tok.chars, substWith, singleton_append]
    rw [singlePassFrom, find?_placeholder_of_ne l c _ hc]
    simp only
    rw [ih]
  | Tok.ph m :: ts, h => by
    have hm : BraceFree m := h (Tok.ph m) (mem_cons_self _ _)
    have ih := singlePassFrom_tokChars l hl ts (fun t ht => h t (mem_cons_of_mem _ ht))
    have hfind := find?_placeholder m (tokChars ts) hm.2 l hl
    simp only [tokChars, Tok.chars, substWith]
    rw [placeholder_data m, cons_append] at hfind ⊢
    rw [singlePassFrom, hfind]
    cases hd : dlookup m l with
    | none =>
      simp only [Option.map_none', tokChars, Tok.chars]
      have hfree : '\x7b' ∉ m.data ++ ['\x7d'] := by
        intro e
        rcases mem_append.1 e with e | e
        · exact hm.1 e
        · simp at e
      rw [singlePassFrom_copy l _ _ hfree, ih, placeholder_data m, cons_append]
    | some v =>
      simp only [Option.map_some']
      rw [singlePassFrom_skip, tokChars_append, tokChars_lits, ← ih]
      congr 2
      have hlen : m.data.length + 1 = (m.data ++ ['\x7d']).length := by simp
      rw [hlen, drop_left]

theorem infix_of_infix_append (p : List Char) :
    ∀ (x rest : List Char), '\x7b' ∉ x → ('\x7b' :: p) <:+: x ++ rest → ('\x7b' :: p) <:+: rest
  | [], _, _, h => h
  | d :: x, rest, hx, h => by
    have hd : d ≠ '\x7b' := fun e => hx (by simp [e])
    have hx' : '\x7b' ∉ x := fun e => hx (mem_cons_of_mem _ e)
    rw [cons_append, infix_cons_iff] at h
    rcases h with h | h
    · obtain ⟨t, ht⟩ := h
      rw [cons_append] at ht
      exact absurd (cons.inj ht).1.symm hd
    · exact infix_of_infix_append p x rest hx' h

theorem name_brace_free (m : String) (hm : BraceFree m) : '\x7b' ∉ m.data ++ ['\x7d'] := by
  intro e
  rcases mem_append.1 e with e | e
  · exact hm.1 e
  · simp at e

theorem placeholder_infix_rest (a m : String) (ha : BraceFree a) (hm : BraceFree m)
    (hne : a ≠ m) (rest : List Char)
    (h : (placeholder m).data <:+: (placeholder a).data ++ rest) :
    (placeholder m).data <:+: rest := by
  have hpre := placeholder_prefix_iff m a rest hm.2 ha.2
  rw [placeholder_data a, cons_append, infix_cons_iff] at h
  rcases h with h | h
  · rw [← isPrefixOf_iff_prefix, ← cons_append, ← placeholder_data a] at h
    exact absurd (hpre.1 h).symm hne
  · rw [placeholder_data m] at h ⊢
    exact infix_of_infix_append _ _ rest (name_brace_free a ha) h

theorem placeholder_infix_replaceFrom (a m : String) (ha : BraceFree a) (hm : BraceFree m)
    (hne : a ≠ m) (v : List Char) :
    ∀ (n : Nat) (s : List Char), s.length ≤ n → (placeholder m).data <:+: s →
      (placeholder m).data <:+: replaceFrom (placeholder a).data v 0 s
  | _, [], _, h => by
    have := eq_nil_of_infix_nil h
    exact absurd this (placeholder_ne_nil m)
  | 0, c :: s, hlen, _ => by simp at hlen
  | n + 1, c :: s, hlen, h => by
    have hlen' : s.length ≤ n := by simpa using hlen
    cases hp : (placeholder a).data.isPrefixOf (c :: s) with
    | true =>
      obtain ⟨rest, hrest⟩ := isPrefixOf_iff_prefix.1 hp
      rw [← hrest] at h ⊢
      rw [replaceFrom_match _ _ (placeholder_ne_nil a)]
      have hrl : rest.length ≤ n := by
        have := congrArg length hrest
        rw [length_append, length_cons] at this
        have hpos : 0 < (placeholder a).data.length := length_pos.2 (placeholder_ne_nil a)
        omega
      have ih := placeholder_infix_replaceFrom a m ha hm hne v n rest hrl
        (placeholder_infix_rest a m ha hm hne rest h)
      exact ih.trans (suffix_append _ _).isInfix
    | false =>
      rw [replaceFrom_no_match _ _ (placeholder_ne_nil a) _ _ hp]
      rw [infix_cons_iff] at h
      rcases h with h | h
      · obtain ⟨post, hpost⟩ := h
        rw [placeholder_data m, cons_append] at hpost
        have hs : s = (m.data ++ ['\x7d']) ++ post := (cons.inj hpost).2.symm
        rw [← (cons.inj hpost).1, placeholder_data a, hs,
          replaceFrom_copy _ _ _ _ (name_brace_free m hm), placeholder_data m, ← cons_append]
        exact (prefix_append _ _).isInfix
      · exact (placeholder_infix_replaceFrom a m ha hm hne v n s hlen' h).trans
          (suffix_cons _ _).isInfix

theorem render_plain (ord : RangeOrder) (responses : GoMap String) (ts : List Tok)
    (hn : PlainNames responses) (hv : PlainValues responses) (hts : PlainTemplate ts) :
    render ord responses (tokString ts) =
      tokString (substWith (fun m => responses.lookup m) ts) := by
  have hmem : ∀ e ∈ ord.f responses.entries, e ∈ responses.entries :=
    fun e he => (ord.perm responses.entries).subset he
  unfold render
  rw [foldl_ReplaceAll_tokString _ ts (fun e he => hn e (hmem e he))
    (fun e he => hv e (hmem e he)) hts]
  congr 1
  exact substWith_congr _ _ (fun m => dlookup_range ord responses m) ts

theorem renderSinglePass_plain (responses : GoMap String) (ts : List Tok)
    (hn : PlainNames responses) (hts : PlainTemplate ts) :
    renderSinglePass responses (tokString ts) =
      tokString (substWith (fun m => responses.lookup m) ts) := by
  unfold renderSinglePass tokString
  rw [singlePassFrom_tokChars responses.entries (fun e he => (hn e he).2) ts hts]
  rfl

/-- C5, the claim as stated fails: with the answers `a = {b}`, `b = x` visited
in the order `a`, `b`, the template `{a}` is rendered to `x`, the answer to `a`
is scanned again; one simultaneous pass gives `{b}`, and so does the code when
it visits `b` first.  Answers without braces are scanned again as well when
the template nests braces: with `a = b`, `b = x` the template `{{a}}` is
rendered to `x`, one simultaneous pass gives `{b}`. -/
theorem render_rescans :
    render RangeOrder.stored chainAnswers "\x7ba\x7d" = "x" ∧
      renderSinglePass chainAnswers "\x7ba\x7d" = "\x7bb\x7d" ∧
      render RangeOrder.reversed chainAnswers "\x7ba\x7d" = "\x7bb\x7d" ∧
      render RangeOrder.stored chainAnswers "\x7ba\x7d" ≠
        renderSinglePass chainAnswers "\x7ba\x7d" ∧
      render RangeOrder.stored nestedAnswers "\x7b\x7ba\x7d\x7d" = "x" ∧
      renderSinglePass nestedAnswers "\x7b\x7ba\x7d\x7d" = "\x7bb\x7d" := by
  decide

/-- C5, amended: for a plain template (literal text without `{`, placeholders
whose names have no brace) and answers of which no name has a brace and no
value has a `{`, the rendered string is the result of replacing each `{name}`
of the original template by its answer in one simultaneous pass, whatever the
order in which the answers are visited. -/
theorem render_eq_renderSinglePass (ord : RangeOrder) (responses : GoMap String)
    (ts : List Tok) (hn : PlainNames responses) (hv : PlainValues responses)
    (hts : PlainTemplate ts) :
    render ord responses (tokString ts) = renderSinglePass responses (tokString ts) := by
  rw [render_plain ord responses ts hn hv hts, renderSinglePass_plain responses ts hn hts]

theorem render_eq_renderSinglePass_witness :
    render RangeOrder.reversed codeAnswers (tokString (lits "token=" ++ [Tok.ph "code"])) =
      renderSinglePass codeAnswers (tokString (lits "token=" ++ [Tok.ph "code"])) :=
  render_eq_renderSinglePass RangeOrder.reversed codeAnswers (lits "token=" ++ [Tok.ph "code"])
    (by decide) (by decide) (by decide)

theorem foldl_ReplaceAll_keeps (m : String) (hm : BraceFree m) :
    ∀ (l : List (Sigma fun _ : String => String)) (s : String),
      (∀ e ∈ l, BraceFree e.1 ∧ e.1 ≠ m) → Contains s (placeholder m) →
      Contains (l.foldl (fun rendered e => ReplaceAll rendered (placeholder e.1) e.2) s)
        (placeholder m)
  | [], _, _, h => h
  | ⟨n, v⟩ :: l, s, hl, h => by
    rw [foldl_cons]
    apply foldl_ReplaceAll_keeps m hm l _ (fun e he => hl e (mem_cons_of_mem _ he))
    have hn := hl ⟨n, v⟩ (mem_cons_self _ _)
    exact placeholder_infix_replaceFrom n m hn.1 hm hn.2 v.data s.data.length s.data
      (Nat.le_refl _) h

/-- C6, the claim as stated fails: the name `m` is not answered and `{m}`
occurs in the template `{m}{m}`, but with the answered name `m}{m` the
rendered string is empty.  And with the answers `a = {b}`, `b = x` visited in
this order, the `{a}` of the template `{a}` is not replaced by the value of
`a`: the rendered string is `x`. -/
theorem render_drops_unknown :
    AList.lookup "m" (AList.singleton "m\x7d\x7bm" "" : GoMap String) = none ∧
      (placeholder "m").data <:+: ("\x7bm\x7d\x7bm\x7d" : String).data ∧
      render RangeOrder.stored (AList.singleton "m\x7d\x7bm" "") "\x7bm\x7d\x7bm\x7d" = "" ∧
      ¬ Contains (render RangeOrder.stored (AList.singleton "m\x7d\x7bm" "") "\x7bm\x7d\x7bm\x7d")
        (placeholder "m") ∧
      chainAnswers.lookup "a" = some "\x7bb\x7d" ∧
      render RangeOrder.stored chainAnswers "\x7ba\x7d" = "x" := by
  refine ⟨by decide, ⟨[], (placeholder "m").data, by decide⟩, by decide, ?_, by decide,
    by decide⟩
  intro h
  have h2 : render RangeOrder.stored (AList.singleton "m\x7d\x7bm" "") "\x7bm\x7d\x7bm\x7d"
      = "" := by decide
  unfold Contains at h
  rw [h2] at h
  exact absurd (eq_nil_of_infix_nil h) (placeholder_ne_nil "m")

/-- C6, amended: when no answered name has a brace in it, every `{m}` of the
template whose name `m` has no brace and is not answered still occurs in the
rendered string, for every template and all answers; and when moreover the
template is plain and no answer has a `{` in it, the rendered string is the
template with every placeholder of an answered name replaced by its answer and
everything else kept.  `token={code}` against `code = abc` renders to
`token=abc`, and `id={missing}` is rendered to itself. -/
theorem render_unknown_kept (ord : RangeOrder) (responses : GoMap String)
    (hn : PlainNames responses) :
    (∀ (template m : String), BraceFree m → responses.lookup m = none →
      Contains template (placeholder m) →
      Contains (render ord responses template) (placeholder m)) ∧
    (∀ ts, PlainValues responses → PlainTemplate ts →
      render ord responses (tokString ts) =
        tokString (substWith (fun m => responses.lookup m) ts)) ∧
    render RangeOrder.stored codeAnswers "token=\x7bcode\x7d" = "token=abc" ∧
    render RangeOrder.stored codeAnswers "id=\x7bmissing\x7d" = "id=\x7bmissing\x7d" := by
  refine ⟨?_, fun ts hv hts => render_plain ord responses ts hn hv hts, by decide, by decide⟩
  intro template m hm hnone hc
  have hmem : ∀ e ∈ ord.f responses.entries, e ∈ responses.entries :=
    fun e he => (ord.perm responses.entries).subset he
  unfold render
  refine foldl_ReplaceAll_keeps m hm _ template (fun e he => ⟨hn e (hmem e he), ?_⟩) hc
  intro hem
  have hk : e.1 ∈ responses := AList.mem_keys.2 (mem_keys_of_mem (hmem e he))
  rw [hem] at hk
  exact absurd hnone (fun h => (AList.lookup_eq_none.1 h) hk)

theorem render_unknown_kept_witness :
    PlainNames codeAnswers ∧
      Contains (render RangeOrder.reversed codeAnswers "id=\x7bmissing\x7d")
        (placeholder "missing") ∧
      render RangeOrder.reversed codeAnswers (tokString (lits "token=" ++ [Tok.ph "code"])) =
        tokString (substWith (fun m => codeAnswers.lookup m) (lits "token=" ++ [Tok.ph "code"])) :=
  ⟨by decide,
    (render_unknown_kept RangeOrder.reversed codeAnswers (by decide)).1 "id=\x7bmissing\x7d"
      "missing" (by decide) (by decide) ⟨"id=".data, [], by decide⟩,
    (render_unknown_kept RangeOrder.reversed codeAnswers (by decide)).2.1
      (lits "token=" ++ [Tok.ph "code"]) (by decide) (by decide)⟩

theorem not_infix_of_no_brace (p s : List Char) (hs : '\x7b' ∉ s) : ¬ ('\x7b' :: p) <:+: s := by
  intro h
  have h2 := infix_of_infix_append p s [] hs (by rw [append_nil]; exact h)
  exact absurd (eq_nil_of_infix_nil h2) (cons_ne_nil _ _)

theorem not_infix_substWith (f : String → Option String) (n : String) (hn : BraceFree n)
    (hfn : f n ≠ none) (hf : ∀ m v, f m = some v → '\x7b' ∉ v.data) :
    ∀ (ts : List Tok), (∀ t ∈ ts, t.Plain) →
      ¬ (placeholder n).data <:+: tokChars (substWith f ts)
  | [], _ => fun h => absurd (eq_nil_of_infix_nil h) (placeholder_ne_nil n)
  | Tok.lit c :: ts, h => by
    have hc : c ≠ '\x7b' := h (Tok.lit c) (mem_cons_self _ _)
    have ih := not_infix_substWith f n hn hfn hf ts (fun t ht => h t (mem_cons_of_mem _ ht))
    intro hin
    simp only [substWith, tokChars, Tok.chars, singleton_append] at hin
    rw [placeholder_data] at hin ih
    exact ih (infix_of_infix_append _ [c] _ (by simpa using Ne.symm hc) hin)
  | Tok.ph m :: ts, h => by
    have hm : BraceFree m := h (Tok.ph m) (mem_cons_self _ _)
    have ih := not_infix_substWith f n hn hfn hf ts (fun t ht => h t (mem_cons_of_mem _ ht))
    intro hin
    simp only [substWith] at hin
    cases hfm : f m with
    | some v =>
      rw [hfm] at hin
      simp only [tokChars_append, tokChars_lits] at hin
      rw [placeholder_data] at hin ih
      exact ih (infix_of_infix_append _ _ _ (hf m v hfm) hin)
    | none =>
      rw [hfm] at hin
      simp only [tokChars, Tok.chars] at hin
      have hne : m ≠ n := fun e => hfn (e ▸ hfm)
      exact ih (placeholder_infix_rest m n hm hn hne _ hin)

theorem mapGet_singleton {V : Type} (k0 : String) (v0 : V) (k : String) (t : V)
    (h : mapGet (some (AList.singleton k0 v0 : GoMap V)) k = some t) : k = k0 ∧ t = v0 := by
  have h' : AList.lookup k (AList.singleton k0 v0 : GoMap V) = some t := h
  have hmem := AList.mem_keys.1 (AList.lookup_isSome.1 (by rw [h']; rfl))
  rw [AList.keys_singleton, mem_singleton] at hmem
  subst hmem
  have hl : AList.lookup k (AList.singleton k v0 : GoMap V) = some v0 := by
    rw [← AList.insert_empty]
    exact AList.lookup_insert _
  rw [hl] at h'
  exact ⟨rfl, (Option.some.inj h').symm⟩

theorem lookup_mem_entries (responses : GoMap String) (k v : String)
    (h : responses.lookup k = some v) : (⟨k, v⟩ : Sigma fun _ : String => String) ∈ responses.entries :=
  AList.mem_lookup_iff.1 h

/-- C7, the claim as stated fails: the answer `{a}` to the prompt `a` is a value
of the parameter map and contains `{a}`; with the answers `a = {b}`, `b = x`
the template `{a}`, rendered with `b` visited first, gives the value `{b}`
although `b` has an answer; and with the single answer `aab = a`, which has no
brace, the template `{a{aab}b}` gives the value `{aab}`. -/
theorem genParams_keeps_placeholder :
    (genParams RangeOrders.stored (AList.singleton "a" "\x7ba\x7d") none).lookup "a" =
        some "\x7ba\x7d" ∧
      (AList.singleton "a" "\x7ba\x7d" : GoMap String).lookup "a" = some "\x7ba\x7d" ∧
      Contains "\x7ba\x7d" (placeholder "a") ∧
      (genParams RangeOrders.reversedRender chainAnswers
          (some (AList.singleton "token" "\x7ba\x7d"))).lookup "token" = some "\x7bb\x7d" ∧
      chainAnswers.lookup "b" = some "x" ∧
      Contains "\x7bb\x7d" (placeholder "b") ∧
      (genParams RangeOrders.stored (AList.singleton "aab" "a")
          (some (AList.singleton "token" "\x7ba\x7baab\x7db\x7d"))).lookup "token" =
        some "\x7baab\x7d" ∧
      Contains "\x7baab\x7d" (placeholder "aab") :=
  ⟨by decide, by decide, ⟨[], [], by decide⟩, by decide, by decide, ⟨[], [], by decide⟩,
    by decide, ⟨[], [], by decide⟩⟩

/-- C7, amended: when no answered name has a brace in it, no answer has a `{`
in it and every parameter template is a plain template, no value of the
parameter map built by the resolver contains `{n}` for any name `n` that has
an answer. -/
theorem genParams_no_placeholder (o : RangeOrders) (responses : GoMap String)
    (templates : Option (GoMap String)) (hn : PlainNames responses)
    (hv : PlainValues responses)
    (ht : ∀ k t, mapGet templates k = some t → ∃ ts, PlainTemplate ts ∧ t = tokString ts) :
    ∀ k val, (genParams o responses templates).lookup k = some val →
      ∀ n, (responses.lookup n).isSome → ¬ Contains val (placeholder n) := by
  intro k val hk n hsome
  obtain ⟨w, hw⟩ := Option.isSome_iff_exists.1 hsome
  have hbn : BraceFree n := hn _ (lookup_mem_entries responses n w hw)
  rw [lookup_genParams] at hk
  cases htk : mapGet templates k with
  | some t =>
    rw [htk] at hk
    obtain ⟨ts, hts, rfl⟩ := ht k t htk
    simp only at hk
    rw [render_plain _ responses ts hn hv hts] at hk
    cases hk
    exact not_infix_substWith _ n hbn (by rw [hw]; exact Option.some_ne_none _)
      (fun m v hm => hv _ (lookup_mem_entries responses m v hm)) ts hts
  | none =>
    rw [htk] at hk
    simp only at hk
    have hval : '\x7b' ∉ val.data := hv _ (lookup_mem_entries responses k val hk)
    unfold Contains
    rw [placeholder_data]
    exact not_infix_of_no_brace _ _ hval

theorem genParams_no_placeholder_witness :
    PlainNames codeAnswers ∧ PlainValues codeAnswers ∧
      (genParams RangeOrders.reversedRender codeAnswers
        (some (AList.singleton "header" (tokString (lits "token=" ++ [Tok.ph "code"]))))).lookup
          "header" = some "token=abc" ∧
      (codeAnswers.lookup "code").isSome ∧
      ¬ Contains "token=abc" (placeholder "code") :=
  ⟨by decide, by decide, by decide, by decide,
    genParams_no_placeholder RangeOrders.reversedRender codeAnswers
      (some (AList.singleton "header" (tokString (lits "token=" ++ [Tok.ph "code"]))))
      (by decide) (by decide)
      (fun k t h => by
        obtain ⟨_, rfl⟩ := mapGet_singleton _ _ k t h
        exact ⟨lits "token=" ++ [Tok.ph "code"], by decide, rfl⟩)
      "header" "token=abc" (by decide) "code" (by decide)⟩

/-! ## Idempotence of the resolver -/

theorem promptAnswer_byName (a : Asker) (ans : String → String) (ha : AnswersByName a ans)
    (h : List Call) (k : String) (v : AutoConfigVar) : promptAnswer a h k v = ans k := by
  unfold promptAnswer
  split
  · exact ha.1 _ _ _ _ _
  · exact ha.2 _ _ _ _ _

theorem askPrompts_byName (ord : RangeOrder) (a : Asker) (ans : String → String)
    (ha : AnswersByName a ans) (log : List Call) (prompt : Option (GoMap AutoConfigVar))
    (k : String) :
    (askPrompts ord a log prompt).1.lookup k = (mapGet prompt k).map (fun _ => ans k) := by
  cases hk : mapGet prompt k with
  | none => rw [askPrompts_lookup_none ord a log prompt k hk]; rfl
  | some v =>
    obtain ⟨h, _, hl⟩ := askPrompts_lookup ord a log prompt k v hk
    rw [hl, promptAnswer_byName a ans ha]
    rfl

theorem askPrompts_plain (ord : RangeOrder) (a : Asker) (ans : String → String)
    (ha : AnswersByName a ans) (log : List Call) (prompt : Option (GoMap AutoConfigVar))
    (hp : ∀ k v, mapGet prompt k = some v → BraceFree k ∧ '\x7b' ∉ (ans k).data) :
    PlainNames (askPrompts ord a log prompt).1 ∧ PlainValues (askPrompts ord a log prompt).1 := by
  have key : ∀ e ∈ (askPrompts ord a log prompt).1.entries,
      BraceFree e.1 ∧ '\x7b' ∉ e.2.data := by
    intro e he
    obtain ⟨k, w⟩ := e
    have hl : (askPrompts ord a log prompt).1.lookup k = some w := AList.mem_lookup_iff.2 he
    rw [askPrompts_byName ord a ans ha] at hl
    cases hk : mapGet prompt k with
    | none => rw [hk] at hl; cases hl
    | some v =>
      rw [hk] at hl
      cases hl
      exact hp k v hk
  exact ⟨fun e he => (key e he).1, fun e he => (key e he).2⟩

theorem resolveAuth_same (o1 o2 : RangeOrders) (a : Asker) (ans : String → String)
    (ha : AnswersByName a ans) (log1 log2 : List Call) (api : API)
    (hplain : PlainAutoConfig api.AutoConfig ans) :
    (resolveAuth o1 a log1 api).1.Name = (resolveAuth o2 a log2 api).1.Name ∧
      ∀ k, mapGet (resolveAuth o1 a log1 api).1.Params k =
        mapGet (resolveAuth o2 a log2 api).1.Params k := by
  by_cases hac : api.AutoConfig.Auth.Name = ""
  · rw [resolveAuth_of_empty o1 a log1 api hac, resolveAuth_of_empty o2 a log2 api hac]
    exact ⟨rfl, fun _ => rfl⟩
  · rw [resolveAuth_of_named o1 a log1 api hac, resolveAuth_of_named o2 a log2 api hac]
    refine ⟨rfl, fun k => ?_⟩
    have h1 := askPrompts_plain o1.prompt a ans ha log1 api.AutoConfig.Prompt hplain.1
    have h2 := askPrompts_plain o2.prompt a ans ha log2 api.AutoConfig.Prompt hplain.1
    have hsame : ∀ m, (askPrompts o1.prompt a log1 api.AutoConfig.Prompt).1.lookup m =
        (askPrompts o2.prompt a log2 api.AutoConfig.Prompt).1.lookup m := by
      intro m
      rw [askPrompts_byName o1.prompt a ans ha, askPrompts_byName o2.prompt a ans ha]
    simp only [mapGet]
    rw [lookup_genParams, lookup_genParams]
    cases htk : mapGet api.AutoConfig.Auth.Params k with
    | none => exact hsame k
    | some t =>
      obtain ⟨ts, hts, rfl⟩ := hplain.2 k t htk
      simp only
      rw [render_plain _ _ ts h1.1 h1.2 hts, render_plain _ _ ts h2.1 h2.2 hts,
        substWith_congr _ _ hsame ts]

theorem askLoadBaseAPI_Base (Load : Loader) (o : RangeOrders) (a : Asker) (log : List Call)
    (config : APIConfig) : (askLoadBaseAPI Load o a log config).1.Base = config.Base := by
  unfold askLoadBaseAPI
  cases Load config.Base with
  | error e => rfl
  | ok api =>
    simp only [setupDefault]
    split <;> rfl

theorem defaultAuth_askLoadBaseAPI (Load : Loader) (o : RangeOrders) (a : Asker)
    (log : List Call) (config : APIConfig) (api : API)
    (hload : Load config.Base = Except.ok api) :
    defaultAuth (askLoadBaseAPI Load o a log config).1 =
      some (mergeAuth o.copy (defaultAuth config) (resolveAuth o a log api).1) := by
  unfold defaultAuth
  rw [defaultProfile_askLoadBaseAPI Load o a log config api hload]
  cases defaultProfile config <;> rfl

theorem SameAuth_refl (x : Option APIAuth) : SameAuth x x := by
  cases x with
  | none => exact True.intro
  | some b => exact ⟨rfl, rfl, fun _ => rfl⟩

theorem mergeAuth_same (ord1 ord2 : RangeOrder) (old1 old2 : Option APIAuth) (r1 r2 : APIAuth)
    (hname : r1.Name = r2.Name) (hparams : ∀ k, mapGet r1.Params k = mapGet r2.Params k)
    (hold : r1.Name = "" → old2.getD APIAuth.zero = old1.getD APIAuth.zero) :
    SameAuth (some (mergeAuth ord1 old1 r1)) (some (mergeAuth ord2 old2 r2)) := by
  by_cases hn : r1.Name = ""
  · rw [mergeAuth_of_empty ord1 old1 r1 hn, mergeAuth_of_empty ord2 old2 r2 (hname ▸ hn),
      hold hn]
    exact SameAuth_refl _
  · rw [mergeAuth_of_named ord1 old1 r1 hn, mergeAuth_of_named ord2 old2 r2 (hname ▸ hn)]
    refine ⟨hname, rfl, fun k => ?_⟩
    simp only [mapGet]
    rw [lookup_copyMap, lookup_copyMap]
    exact hparams k

/-- C8, the claim as stated fails: for the prompts `a`, `b` answered `{b}` and
`x` and the parameter template `token = {a}`, the parameter `token` is `{b}`
when the rendering loop visits the answers as stored, and `x` when it visits
them in reverse, also in a second run on the configuration the first run
left. -/
theorem askLoadBaseAPI_order_dependent :
    (defaultAuth (askLoadBaseAPI (fun _ => Except.ok chainAPI) RangeOrders.stored chainAsker []
        freshConfig).1).bind (fun b => mapGet b.Params "token") = some "\x7bb\x7d" ∧
      (defaultAuth (askLoadBaseAPI (fun _ => Except.ok chainAPI) RangeOrders.reversedRender
        chainAsker [] freshConfig).1).bind (fun b => mapGet b.Params "token") = some "x" ∧
      (defaultAuth (askLoadBaseAPI (fun _ => Except.ok chainAPI) RangeOrders.reversedRender
        chainAsker []
        (askLoadBaseAPI (fun _ => Except.ok chainAPI) RangeOrders.stored chainAsker []
          freshConfig).1).1).bind (fun b => mapGet b.Params "token") = some "x" := by
  decide

/-- C8, amended: when the asker answers every prompt by its name alone and the
auto-configuration is plain for these answers (no prompt name has a brace, no
answer has a `{`, every parameter template is a plain template), the default
profile's auth block after a second run of `askLoadBaseAPI` is the same as
after the first, and the auth block after one run is the same whatever the
order in which any of the maps is visited. -/
theorem askLoadBaseAPI_idempotent (Load : Loader) (o1 o2 : RangeOrders) (a : Asker)
    (ans : String → String) (log1 log2 : List Call) (config : APIConfig)
    (ha : AnswersByName a ans)
    (hplain : ∀ api, Load config.Base = Except.ok api → PlainAutoConfig api.AutoConfig ans) :
    SameAuth (defaultAuth (askLoadBaseAPI Load o1 a log1 config).1)
        (defaultAuth (askLoadBaseAPI Load o2 a log2 (askLoadBaseAPI Load o1 a log1 config).1).1) ∧
      SameAuth (defaultAuth (askLoadBaseAPI Load o1 a log1 config).1)
        (defaultAuth (askLoadBaseAPI Load o2 a log2 config).1) := by
  have hbase := askLoadBaseAPI_Base Load o1 a log1 config
  cases hload : Load config.Base with
  | error e =>
    have h1 : askLoadBaseAPI Load o1 a log1 config = (config, log1) := by
      unfold askLoadBaseAPI; rw [hload]
    have h2 : askLoadBaseAPI Load o2 a log2 config = (config, log2) := by
      unfold askLoadBaseAPI; rw [hload]
    rw [h1, h2]
    exact ⟨SameAuth_refl _, SameAuth_refl _⟩
  | ok api =>
    have hsame := resolveAuth_same o1 o2 a ans ha log1 log2 api (hplain api hload)
    have hload' : Load (askLoadBaseAPI Load o1 a log1 config).1.Base = Except.ok api := by
      rw [hbase]; exact hload
    constructor
    · rw [defaultAuth_askLoadBaseAPI Load o2 a log2 _ api hload',
        defaultAuth_askLoadBaseAPI Load o1 a log1 config api hload]
      exact mergeAuth_same _ _ _ _ _ _ hsame.1 hsame.2
        (fun hn => by rw [mergeAuth_of_empty _ _ _ hn]; rfl)
    · rw [defaultAuth_askLoadBaseAPI Load o1 a log1 config api hload,
        defaultAuth_askLoadBaseAPI Load o2 a log2 config api hload]
      exact mergeAuth_same _ _ _ _ _ _ hsame.1 hsame.2 (fun _ => rfl)

theorem regionAPI_plain : PlainAutoConfig regionAPI.AutoConfig (fun _ => "us") := by
  constructor
  · intro k v h
    obtain ⟨rfl, _⟩ := mapGet_singleton _ _ k v h
    decide
  · intro k t h
    obtain ⟨_, rfl⟩ := mapGet_singleton _ _ k t h
    exact ⟨regionTemplate, by decide, by decide⟩

theorem askLoadBaseAPI_idempotent_witness :
    SameAuth
        (defaultAuth (askLoadBaseAPI (fun _ => Except.ok regionAPI) RangeOrders.stored
          (constAsker "us") [] manualConfig).1)
        (defaultAuth (askLoadBaseAPI (fun _ => Except.ok regionAPI) RangeOrders.reversedRender
          (constAsker "us") []
          (askLoadBaseAPI (fun _ => Except.ok regionAPI) RangeOrders.stored
            (constAsker "us") [] manualConfig).1).1) ∧
      SameAuth
        (defaultAuth (askLoadBaseAPI (fun _ => Except.ok regionAPI) RangeOrders.stored
          (constAsker "us") [] manualConfig).1)
        (defaultAuth (askLoadBaseAPI (fun _ => Except.ok regionAPI) RangeOrders.reversedRender
          (constAsker "us") [] manualConfig).1) :=
  askLoadBaseAPI_idempotent (fun _ => Except.ok regionAPI) RangeOrders.stored
    RangeOrders.reversedRender (constAsker "us") (fun _ => "us") [] [] manualConfig
    ⟨fun _ _ _ _ _ => rfl, fun _ _ _ _ _ => rfl⟩
    (fun api h => by
      have : regionAPI = api := Except.ok.inj h
      subst this
      exact regionAPI_plain)

/-! ## Properties of the menu options -/

theorem splitFrom_last (sep cur s : List Char) : splitFrom sep 0 0 cur s = [cur ++ s] := by
  cases s with
  | nil => simp [splitFrom]
  | cons c s => simp [splitFrom]

theorem SplitN_edit_header (k : String) :
    SplitN ("Edit header " ++ k) " " 3 = ["Edit", "header", k] := by
  cases k with
  | mk ks =>
    simp only [SplitN, String.data_append]
    simp [splitFrom, splitFrom_last, isPrefixOf]

theorem SplitN_delete_header (k : String) :
    SplitN ("Delete header " ++ k) " " 3 = ["Delete", "header", k] := by
  cases k with
  | mk ks =>
    simp only [SplitN, String.data_append]
    simp [splitFrom, splitFrom_last, isPrefixOf]

theorem SplitN_edit_query (k : String) :
    SplitN ("Edit query param " ++ k) " " 4 = ["Edit", "query", "param", k] := by
  cases k with
  | mk ks =>
    simp only [SplitN, String.data_append]
    simp [splitFrom, splitFrom_last, isPrefixOf]

theorem SplitN_delete_query (k : String) :
    SplitN ("Delete query param " ++ k) " " 4 = ["Delete", "query", "param", k] := by
  cases k with
  | mk ks =>
    simp only [SplitN, String.data_append]
    simp [splitFrom, splitFrom_last, isPrefixOf]

theorem SplitN_edit_profile (k : String) :
    SplitN ("Edit profile " ++ k) " " 3 = ["Edit", "profile", k] := by
  cases k with
  | mk ks =>
    simp only [SplitN, String.data_append]
    simp [splitFrom, splitFrom_last, isPrefixOf]

theorem guard_edit_header (k : String) :
    "Edit header " ++ k ≠ "Add header" ∧ HasPrefix ("Edit header " ++ k) "Edit header" = true := by
  constructor
  · simp [String.ext_iff, String.data_append]
  · simp [HasPrefix, String.data_append, isPrefixOf]

theorem guard_delete_header (k : String) :
    "Delete header " ++ k ≠ "Add header" ∧
      HasPrefix ("Delete header " ++ k) "Edit header" = false ∧
      HasPrefix ("Delete header " ++ k) "Delete header" = true := by
  refine ⟨?_, ?_, ?_⟩
  · simp [String.ext_iff, String.data_append]
  · simp [HasPrefix, String.data_append, isPrefixOf]
  · simp [HasPrefix, String.data_append, isPrefixOf]

theorem guard_edit_query (k : String) :
    "Edit query param " ++ k ≠ "Add header" ∧
      HasPrefix ("Edit query param " ++ k) "Edit header" = false ∧
      HasPrefix ("Edit query param " ++ k) "Delete header" = false ∧
      "Edit query param " ++ k ≠ "Add query param" ∧
      HasPrefix ("Edit query param " ++ k) "Edit query param" = true := by
  refine ⟨?_, ?_, ?_, ?_, ?_⟩
  · simp [String.ext_iff, String.data_append]
  · simp [HasPrefix, String.data_append, isPrefixOf]
  · simp [HasPrefix, String.data_append, isPrefixOf]
  · simp [String.ext_iff, String.data_append]
  · simp [HasPrefix, String.data_append, isPrefixOf]

theorem guard_delete_query (k : String) :
    "Delete query param " ++ k ≠ "Add header" ∧
      HasPrefix ("Delete query param " ++ k) "Edit header" = false ∧
      HasPrefix ("Delete query param " ++ k) "Delete header" = false ∧
      "Delete query param " ++ k ≠ "Add query param" ∧
      HasPrefix ("Delete query param " ++ k) "Edit query param" = false ∧
      HasPrefix ("Delete query param " ++ k) "Delete query param" = true := by
  refine ⟨?_, ?_, ?_, ?_, ?_, ?_⟩
  · simp [String.ext_iff, String.data_append]
  · simp [HasPrefix, String.data_append, isPrefixOf]
  · simp [HasPrefix, String.data_append, isPrefixOf]
  · simp [String.ext_iff, String.data_append]
  · simp [HasPrefix, String.data_append, isPrefixOf]
  · simp [HasPrefix, String.data_append, isPrefixOf]

theorem guard_edit_profile (k : String) :
    HasPrefix ("Edit profile " ++ k) "Change base URI" = false ∧
      "Edit profile " ++ k ≠ "Add profile" ∧
      HasPrefix ("Edit profile " ++ k) "Edit profile" = true := by
  refine ⟨?_, ?_, ?_⟩
  · simp [HasPrefix, String.data_append, isPrefixOf]
  · simp [String.ext_iff, String.data_append]
  · simp [HasPrefix, String.data_append, isPrefixOf]

/-! ## Properties of the profile editor -/

theorem editStep_edit_header (rt : Runtime) (fuel : Nat) (a : Asker) (name : String)
    (profile : APIProfile) (log : List Call) (h : String)
    (hchoice : menuChoice rt a name profile log = "Edit header " ++ h) :
    editStep rt fuel a name profile log =
      (mapSet profile.Headers
          (a.askInput (log ++ [menuCall rt name profile log]) "Header name" h true "")
          (a.askInput
            (log ++ [menuCall rt name profile log] ++ [Call.input "Header name" h true ""])
            "Header value"
            (mapStr profile.Headers
              (a.askInput (log ++ [menuCall rt name profile log]) "Header name" h true ""))
            false "")).bind
        (fun hs => Res.ok ({ profile with Headers := hs },
          log ++ [menuCall rt name profile log] ++ [Call.input "Header name" h true ""] ++
            [Call.input "Header value"
              (mapStr profile.Headers
                (a.askInput (log ++ [menuCall rt name profile log]) "Header name" h true ""))
              false ""], false)) := by
  unfold editStep
  simp only [hchoice, (guard_edit_header h).1, (guard_edit_header h).2, SplitN_edit_header,
    if_true, if_false]
  rfl

theorem editStep_delete_header (rt : Runtime) (fuel : Nat) (a : Asker) (name : String)
    (profile : APIProfile) (log : List Call) (h : String)
    (hchoice : menuChoice rt a name profile log = "Delete header " ++ h) :
    editStep rt fuel a name profile log =
      Res.ok
        (if a.askConfirm (log ++ [menuCall rt name profile log])
            ("Are you sure you want to delete the " ++ h ++ " header?") false "" = true
          then { profile with Headers := mapDelete profile.Headers h } else profile,
        log ++ [menuCall rt name profile log] ++
          [Call.confirm ("Are you sure you want to delete the " ++ h ++ " header?") false ""],
        false) := by
  unfold editStep
  simp only [hchoice, (guard_delete_header h).1, (guard_delete_header h).2.1,
    (guard_delete_header h).2.2, SplitN_delete_header, if_true, if_false, Bool.false_eq_true]
  by_cases hc : a.askConfirm (log ++ [menuCall rt name profile log])
      ("Are you sure you want to delete the " ++ h ++ " header?") false "" = true
  · simp [hc]
  · simp [hc]

theorem editStep_edit_query (rt : Runtime) (fuel : Nat) (a : Asker) (name : String)
    (profile : APIProfile) (log : List Call) (q : String)
    (hchoice : menuChoice rt a name profile log = "Edit query param " ++ q) :
    editStep rt fuel a name profile log =
      (mapSet profile.Headers
          (a.askInput (log ++ [menuCall rt name profile log]) "Query param name" q true "")
          (a.askInput
            (log ++ [menuCall rt name profile log] ++ [Call.input "Query param name" q true ""])
            "Query param value"
            (mapStr profile.Query
              (a.askInput (log ++ [menuCall rt name profile log]) "Query param name" q true ""))
            false "")).bind
        (fun hs => Res.ok ({ profile with Headers := hs },
          log ++ [menuCall rt name profile log] ++ [Call.input "Query param name" q true ""] ++
            [Call.input "Query param value"
              (mapStr profile.Query
                (a.askInput (log ++ [menuCall rt name profile log]) "Query param name" q true ""))
              false ""], false)) := by
  unfold editStep
  simp only [hchoice, (guard_edit_query q).1, (guard_edit_query q).2.1,
    (guard_edit_query q).2.2.1, (guard_edit_query q).2.2.2.1, (guard_edit_query q).2.2.2.2,
    SplitN_edit_query, if_true, if_false, Bool.false_eq_true]
  rfl

theorem editStep_delete_query (rt : Runtime) (fuel : Nat) (a : Asker) (name : String)
    (profile : APIProfile) (log : List Call) (q : String)
    (hchoice : menuChoice rt a name profile log = "Delete query param " ++ q) :
    editStep rt fuel a name profile log =
      Res.ok
        (if a.askConfirm (log ++ [menuCall rt name profile log])
            ("Are you sure you want to delete the " ++ q ++ " query param?") false "" = true
          then { profile with Query := mapDelete profile.Query q } else profile,
        log ++ [menuCall rt name profile log] ++
          [Call.confirm ("Are you sure you want to delete the " ++ q ++ " query param?") false ""],
        false) := by
  unfold editStep
  simp only [hchoice, (guard_delete_query q).1, (guard_delete_query q).2.1,
    (guard_delete_query q).2.2.1, (guard_delete_query q).2.2.2.1,
    (guard_delete_query q).2.2.2.2.1, (guard_delete_query q).2.2.2.2.2,
    SplitN_delete_query, if_true, if_false, Bool.false_eq_true]
  by_cases hc : a.askConfirm (log ++ [menuCall rt name profile log])
      ("Are you sure you want to delete the " ++ q ++ " query param?") false "" = true
  · simp [hc]
  · simp [hc]

/-- C11, the claim as stated fails: in a profile with the header `X-Key = 1`,
selecting `Edit header X-Key` and answering the name prompt with `X-Key2` and
the value prompt with `2` leaves both headers, `X-Key = 1` and `X-Key2 = 2`. -/
theorem editStep_edit_header_no_rename :
    (editStep plainRuntime 1
        (scriptAsker ["Edit header X-Key"] [("Header name", "X-Key2"), ("Header value", "2")]
          [])
        "default" keyProfile []).val?.map
        (fun r => (mapGet r.1.Headers "X-Key", mapGet r.1.Headers "X-Key2")) =
      some (some "1", some "2") := by
  decide

/-- C11, amended: selecting `Edit header h` in a profile whose header map is
not nil and answering the name prompt with a different key writes the value
entered under that key and leaves every other header as it was, `h` with its
value included; the query map and the auth block are unchanged. -/
theorem editStep_edit_header_other_key (rt : Runtime) (fuel : Nat) (a : Asker)
    (name : String) (profile : APIProfile) (log : List Call) (h : String) (hs : GoMap String)
    (hchoice : menuChoice rt a name profile log = "Edit header " ++ h)
    (hhs : profile.Headers = some hs)
    (hne : a.askInput (log ++ [menuCall rt name profile log]) "Header name" h true "" ≠ h) :
    ∃ p' log', editStep rt fuel a name profile log = Res.ok (p', log', false) ∧
      mapGet p'.Headers (a.askInput (log ++ [menuCall rt name profile log]) "Header name" h true "")
        = some (a.askInput
            (log ++ [menuCall rt name profile log] ++ [Call.input "Header name" h true ""])
            "Header value"
            (mapStr profile.Headers
              (a.askInput (log ++ [menuCall rt name profile log]) "Header name" h true ""))
            false "") ∧
      mapGet p'.Headers h = mapGet profile.Headers h ∧
      (∀ k, k ≠ a.askInput (log ++ [menuCall rt name profile log]) "Header name" h true "" →
        mapGet p'.Headers k = mapGet profile.Headers k) ∧
      p'.Query = profile.Query ∧ p'.Auth = profile.Auth := by
  rw [editStep_edit_header rt fuel a name profile log h hchoice, hhs]
  refine ⟨_, _, rfl, ?_, ?_, ?_, rfl, rfl⟩
  · exact AList.lookup_insert _
  · exact AList.lookup_insert_ne (Ne.symm hne)
  · intro k hk
    exact AList.lookup_insert_ne hk

theorem editStep_edit_header_other_key_witness :
    ∃ p' log', editStep plainRuntime 1
        (scriptAsker ["Edit header X-Key"] [("Header name", "X-Key2"), ("Header value", "2")]
          []) "default" keyProfile [] = Res.ok (p', log', false) ∧
      mapGet p'.Headers "X-Key2" = some "2" ∧
      mapGet p'.Headers "X-Key" = mapGet keyProfile.Headers "X-Key" ∧
      (∀ k, k ≠ "X-Key2" → mapGet p'.Headers k = mapGet keyProfile.Headers k) ∧
      p'.Query = keyProfile.Query ∧ p'.Auth = keyProfile.Auth :=
  editStep_edit_header_other_key plainRuntime 1
    (scriptAsker ["Edit header X-Key"] [("Header name", "X-Key2"), ("Header value", "2")] [])
    "default" keyProfile [] "X-Key" (AList.singleton "X-Key" "1") (by decide) rfl (by decide)

/-- C14, what the code does: in a profile with the header `X-Key = 1` and the
query parameter `page = 2`, selecting `Edit query param page`, keeping the
name and entering the value `3` stores `page = 3` in the header map and leaves
the query map with `page = 2`. -/
theorem editStep_edit_query_writes_header :
    (editStep plainRuntime 1
        (scriptAsker ["Edit query param page"] [("Query param value", "3")] [])
        "default" keyProfile []).val?.map
        (fun r => (mapGet r.1.Headers "page", mapGet r.1.Query "page", mapGet r.1.Headers "X-Key"))
      = some (some "3", some "2", some "1") ∧
    mapGet keyProfile.Headers "page" = none := by
  decide

theorem editLoop_declined_then_finished (rt : Runtime) (fuel : Nat) (a : Asker) (name : String)
    (profile : APIProfile) (log log1 : List Call)
    (hstep : editStep rt (fuel + 1) a name profile log = Res.ok (profile, log1, false))
    (hfin : menuChoice rt a name profile log1 = "Finished with profile") :
    editLoop rt a name (fuel + 2) profile log =
      Res.ok (profile, log1 ++ [menuCall rt name profile log1]) := by
  have hlast : editStep rt fuel a name profile log1 =
      Res.ok (profile, log1 ++ [menuCall rt name profile log1], true) := by
    unfold editStep
    simp only [hfin]
    rfl
  show (editStep rt (fuel + 1) a name profile log).bind
      (fun r => if r.2.2 then Res.ok (r.1, r.2.1) else editLoop rt a name (fuel + 1) r.1 r.2.1) = _
  rw [hstep]
  show editLoop rt a name (fuel + 1) profile log1 = _
  show (editStep rt fuel a name profile log1).bind
      (fun r => if r.2.2 then Res.ok (r.1, r.2.1) else editLoop rt a name fuel r.1 r.2.1) = _
  rw [hlast]
  rfl

/-- C15: selecting `Delete header k` and answering the confirmation with false
leaves the profile exactly as it was, headers, query parameters and auth
block, and so does `Delete query param k`; the confirmation is asked with the
default false.  A call of `askEditProfile` in which the user does this and
then selects `Finished with profile` returns the profile it was given, its nil
maps replaced by empty ones. -/
theorem editStep_delete_declined (rt : Runtime) (fuel : Nat) (a : Asker) (name : String)
    (profile : APIProfile) (log : List Call) (k : String) :
    (menuChoice rt a name profile log = "Delete header " ++ k →
      a.askConfirm (log ++ [menuCall rt name profile log])
        ("Are you sure you want to delete the " ++ k ++ " header?") false "" = false →
      editStep rt fuel a name profile log =
        Res.ok (profile,
          log ++ [menuCall rt name profile log] ++
            [Call.confirm ("Are you sure you want to delete the " ++ k ++ " header?") false ""],
          false)) ∧
    (menuChoice rt a name profile log = "Delete query param " ++ k →
      a.askConfirm (log ++ [menuCall rt name profile log])
        ("Are you sure you want to delete the " ++ k ++ " query param?") false "" = false →
      editStep rt fuel a name profile log =
        Res.ok (profile,
          log ++ [menuCall rt name profile log] ++
            [Call.confirm ("Are you sure you want to delete the " ++ k ++ " query param?")
              false ""],
          false)) ∧
    (menuChoice rt a name (initMaps profile) log = "Delete header " ++ k →
      a.askConfirm (log ++ [menuCall rt name (initMaps profile) log])
        ("Are you sure you want to delete the " ++ k ++ " header?") false "" = false →
      menuChoice rt a name (initMaps profile)
          (log ++ [menuCall rt name (initMaps profile) log] ++
            [Call.confirm ("Are you sure you want to delete the " ++ k ++ " header?") false ""])
        = "Finished with profile" →
      ∃ log', askEditProfile rt (fuel + 2) a name profile log =
        Res.ok (initMaps profile, log')) ∧
    (menuChoice rt a name (initMaps profile) log = "Delete query param " ++ k →
      a.askConfirm (log ++ [menuCall rt name (initMaps profile) log])
        ("Are you sure you want to delete the " ++ k ++ " query param?") false "" = false →
      menuChoice rt a name (initMaps profile)
          (log ++ [menuCall rt name (initMaps profile) log] ++
            [Call.confirm ("Are you sure you want to delete the " ++ k ++ " query param?")
              false ""])
        = "Finished with profile" →
      ∃ log', askEditProfile rt (fuel + 2) a name profile log =
        Res.ok (initMaps profile, log')) := by
  refine ⟨?_, ?_, ?_, ?_⟩
  · intro hchoice hconf
    rw [editStep_delete_header rt fuel a name profile log k hchoice, hconf]
    rfl
  · intro hchoice hconf
    rw [editStep_delete_query rt fuel a name profile log k hchoice, hconf]
    rfl
  · intro hchoice hconf hfin
    have hstep := editStep_delete_header rt (fuel + 1) a name (initMaps profile) log k hchoice
    rw [hconf] at hstep
    exact ⟨_, editLoop_declined_then_finished rt fuel a name (initMaps profile) log _ hstep hfin⟩
  · intro hchoice hconf hfin
    have hstep := editStep_delete_query rt (fuel + 1) a name (initMaps profile) log k hchoice
    rw [hconf] at hstep
    exact ⟨_, editLoop_declined_then_finished rt fuel a name (initMaps profile) log _ hstep hfin⟩

theorem editStep_delete_declined_witness :
    editStep plainRuntime 1 (scriptAsker ["Delete header X-Key"] [] []) "default" keyProfile []
        = Res.ok (keyProfile,
          [] ++ [menuCall plainRuntime "default" keyProfile []] ++
            [Call.confirm ("Are you sure you want to delete the " ++ "X-Key" ++ " header?")
              false ""],
          false) ∧
      editStep plainRuntime 1 (scriptAsker ["Delete query param page"] [] []) "default"
          keyProfile []
        = Res.ok (keyProfile,
          [] ++ [menuCall plainRuntime "default" keyProfile []] ++
            [Call.confirm ("Are you sure you want to delete the " ++ "page" ++ " query param?")
              false ""],
          false) ∧
      (askEditProfile plainRuntime 2
          (scriptAsker ["Delete header X-Key", "Finished with profile"] [] []) "default"
          keyProfile []).val?.map
          (fun r => (r.1.Headers.map AList.entries, r.1.Query.map AList.entries,
            r.1.Auth.map (fun b => b.Name)))
        = some (some [⟨"X-Key", "1"⟩], some [⟨"page", "2"⟩], none) :=
  ⟨(editStep_delete_declined plainRuntime 1 (scriptAsker ["Delete header X-Key"] [] [])
      "default" keyProfile [] "X-Key").1 (by decide) (by decide),
    (editStep_delete_declined plainRuntime 1 (scriptAsker ["Delete query param page"] [] [])
      "default" keyProfile [] "page").2.1 (by decide) (by decide),
    by decide⟩

/-- C16, the claim as stated fails: in a profile with the header `X-Key = 1`,
after `Edit header X-Key` and the answer `X-Key2` to the name prompt, the value
prompt is seeded with the empty string, not with the value `1` stored under
`X-Key`. -/
theorem editStep_edit_header_seed_other_key :
    (editStep plainRuntime 1
        (scriptAsker ["Edit header X-Key"] [("Header name", "X-Key2")] [])
        "default" keyProfile []).val?.map (fun r => r.2.1.drop 1) =
      some [Call.input "Header name" "X-Key" true "", Call.input "Header value" "" false ""] ∧
    mapStr keyProfile.Headers "X-Key" = "1" := by
  decide

/-- C16, amended: when `Edit header h` is selected in a profile whose header map
is not nil, the name prompt is seeded with `h` and the value prompt is seeded
with the value currently stored under the key the user enters at the name
prompt (the empty string when there is none); this is the value stored under
`h` when the user keeps the name. -/
theorem editStep_edit_header_seed (rt : Runtime) (fuel : Nat) (a : Asker) (name : String)
    (profile : APIProfile) (log : List Call) (h : String) (hs : GoMap String)
    (hchoice : menuChoice rt a name profile log = "Edit header " ++ h)
    (hhs : profile.Headers = some hs) :
    (∃ p', editStep rt fuel a name profile log =
      Res.ok (p',
        log ++ [menuCall rt name profile log] ++ [Call.input "Header name" h true ""] ++
          [Call.input "Header value"
            (mapStr profile.Headers
              (a.askInput (log ++ [menuCall rt name profile log]) "Header name" h true ""))
            false ""],
        false)) ∧
    (a.askInput (log ++ [menuCall rt name profile log]) "Header name" h true "" = h →
      mapStr profile.Headers
          (a.askInput (log ++ [menuCall rt name profile log]) "Header name" h true "") =
        mapStr profile.Headers h) := by
  constructor
  · rw [editStep_edit_header rt fuel a name profile log h hchoice, hhs]
    exact ⟨_, rfl⟩
  · intro hk
    rw [hk]

theorem editStep_edit_header_seed_witness :
    (∃ p', editStep plainRuntime 1 (scriptAsker ["Edit header X-Key"] [] []) "default"
        keyProfile [] =
      Res.ok (p',
        [] ++ [menuCall plainRuntime "default" keyProfile []] ++
          [Call.input "Header name" "X-Key" true ""] ++
          [Call.input "Header value"
            (mapStr keyProfile.Headers
              ((scriptAsker ["Edit header X-Key"] [] []).askInput
                ([] ++ [menuCall plainRuntime "default" keyProfile []]) "Header name" "X-Key"
                true ""))
            false ""],
        false)) ∧
    mapStr keyProfile.Headers
        ((scriptAsker ["Edit header X-Key"] [] []).askInput
          ([] ++ [menuCall plainRuntime "default" keyProfile []]) "Header name" "X-Key" true "") =
      "1" :=
  ⟨(editStep_edit_header_seed plainRuntime 1 (scriptAsker ["Edit header X-Key"] [] [])
      "default" keyProfile [] "X-Key" (AList.singleton "X-Key" "1") (by decide) rfl).1,
    by decide⟩

/-! ## Properties of the auth editor -/

theorem lastEntered_concat (l : List (String × String)) (e : String × String) (k : String) :
    lastEntered (l ++ [e]) k = if k = e.1 then some e.2 else lastEntered l k := by
  unfold lastEntered
  rw [reverse_append, reverse_singleton, singleton_append]
  obtain ⟨k', v'⟩ := e
  rw [List.lookup_cons]
  by_cases h : k = k'
  · subst h; simp
  · have hb : (k == k') = false := by simpa using h
    simp only [hb, h, if_false]

theorem lastEntered_eq_none (l : List (String × String)) (k : String) :
    lastEntered l k = none ↔ k ∉ l.map Prod.fst := by
  induction l using List.reverseRecOn with
  | nil => simp [lastEntered]
  | append_singleton l e ih =>
    rw [lastEntered_concat]
    by_cases h : k = e.1
    · simp [h]
    · simp [h, ih]

theorem lookup_foldl_extras (k : String) (l : List (String × String)) (params : GoMap String) :
    (l.foldl (fun p e => p.insert e.1 e.2) params).lookup k =
      match lastEntered l k with
      | some v => some v
      | none => params.lookup k := by
  induction l using List.reverseRecOn with
  | nil => simp [lastEntered]
  | append_singleton l e ih =>
    rw [foldl_append, foldl_cons, foldl_nil, lastEntered_concat]
    by_cases h : k = e.1
    · subst h
      simp [AList.lookup_insert]
    · rw [AList.lookup_insert_ne h, ih]
      simp [h]

theorem askExtras_eq (a : Asker) (prev : Option (GoMap String)) :
    ∀ (fuel : Nat) (params : GoMap String) (log : List Call),
      (∃ log', askExtras a prev fuel params log =
          Res.ok ((extrasEntered a prev fuel log).foldl (fun p e => p.insert e.1 e.2) params,
            log') ∧ log <+: log') ∨
        (askExtras a prev fuel params log = Res.more ∧
          (extrasEntered a prev fuel log).length = fuel)
  | 0, _, _ => Or.inr ⟨rfl, rfl⟩
  | fuel + 1, params, log => by
    unfold askExtras extrasEntered
    by_cases hc : a.askConfirm log "Add additional auth param?" false "" = true
    · simp only [hc, if_true, foldl_cons, length_cons]
      rcases askExtras_eq a prev fuel _ _ with ⟨log', h, hp⟩ | ⟨h, hl⟩
      · refine Or.inl ⟨log', h, ?_⟩
        refine IsPrefix.trans ?_ hp
        rw [append_assoc, append_assoc]
        exact prefix_append _ _
      · exact Or.inr ⟨h, by rw [hl]⟩
    · simp only [hc, if_false, foldl_nil]
      exact Or.inl ⟨_, rfl, prefix_append _ _⟩

theorem askParam_log_extends (a : Asker) (prev : Option (GoMap String))
    (st : GoMap String × List Call) (p : AuthParam) : st.2 <+: (askParam a prev st p).2 :=
  prefix_append _ _

theorem foldl_askParam_lookup_none (a : Asker) (prev : Option (GoMap String)) (k : String) :
    ∀ (ps : List AuthParam) (st : GoMap String × List Call),
      k ∉ ps.map AuthParam.Name → (ps.foldl (askParam a prev) st).1.lookup k = st.1.lookup k
  | [], _, _ => rfl
  | p :: t, st, h => by
    rw [map_cons, mem_cons, not_or] at h
    rw [foldl_cons, foldl_askParam_lookup_none a prev k t _ h.2]
    exact AList.lookup_insert_ne h.1

theorem foldl_askParam_lookup (a : Asker) (prev : Option (GoMap String)) (k : String) :
    ∀ (ps : List AuthParam) (st : GoMap String × List Call),
      k ∈ ps.map AuthParam.Name →
      ∃ p ∈ ps, p.Name = k ∧ ∃ h, st.2 <+: h ∧
        (ps.foldl (askParam a prev) st).1.lookup k =
          some (a.askInput h ("Auth parameter " ++ k) (mapStr prev k) p.Required p.Help)
  | [], _, h => by simp at h
  | p :: t, st, h => by
    rw [foldl_cons]
    by_cases ht : k ∈ t.map AuthParam.Name
    · obtain ⟨q, hq, hn, hh, hp, hl⟩ := foldl_askParam_lookup a prev k t (askParam a prev st p) ht
      exact ⟨q, mem_cons_of_mem _ hq, hn, hh, (askParam_log_extends a prev st p).trans hp, hl⟩
    · have hk : p.Name = k := by
        rw [map_cons, mem_cons] at h
        rcases h with h | h
        · exact h.symm
        · exact absurd h ht
      refine ⟨p, mem_cons_self _ _, hk, st.2, prefix_refl _, ?_⟩
      rw [foldl_askParam_lookup_none a prev k t _ ht]
      subst hk
      exact AList.lookup_insert _

theorem askDeclared_log_extends (rt : Runtime) (a : Asker) (log : List Call) (auth : APIAuth)
    (ps : List AuthParam) : log <+: (askDeclared rt a log auth ps).2 := by
  have key : ∀ (ps : List AuthParam) (st : GoMap String × List Call),
      st.2 <+: (ps.foldl (askParam a auth.Params) st).2 := by
    intro ps
    induction ps with
    | nil => intro st; exact prefix_refl _
    | cons p t ih =>
      intro st
      rw [foldl_cons]
      exact (askParam_log_extends a auth.Params st p).trans (ih _)
  exact (prefix_append log [authTypeCall rt log auth]).trans
    (key ps (∅, log ++ [authTypeCall rt log auth]))

/-- C13, the claim as stated fails: with the scheme `http-basic`, whose declared
parameters are `username` and `password`, the user answers `alice` to the
prompt of `username` and then enters the extra parameter `username = bob`: the
declared parameter `username` holds `bob`, not the answer to its prompt. -/
theorem askAuth_extra_overrides_declared :
    (askAuth plainRuntime 2
        (scriptAsker ["http-basic"]
          [("Auth parameter username", "alice"), ("Auth parameter password", "secret"),
            ("Param key", "username"), ("Param value", "bob")] [true])
        [] APIAuth.zero).val?.map
        (fun r => (r.1.Name, mapGet r.1.Params "username", mapGet r.1.Params "password")) =
      some ("http-basic", some "bob", some "secret") := by
  decide

/-- C13, amended: `askAuth` panics exactly when the scheme chosen is not
registered, and it has not returned within `fuel` rounds exactly when the user
accepted all `fuel` offers of an extra parameter.  When it returns, the auth
name is the scheme chosen and the parameter map is a new map whose keys are
exactly the declared parameter names of that scheme and the keys entered as
extra parameters; a key entered as an extra parameter holds the value entered
last for it, and a declared parameter that was not entered as an extra
parameter holds the answer to a prompt declared for it, whose default was the
previous value stored under that name; no other key of the previous map is
present. -/
theorem askAuth_result (rt : Runtime) (fuel : Nat) (a : Asker) (log : List Call)
    (auth : APIAuth) :
    match askAuth rt fuel a log auth with
    | Res.ok r =>
      ∃ ps params, rt.authHandlers.lookup (authChoice rt a log auth) = some ps ∧
        r.1 = ⟨authChoice rt a log auth, some params⟩ ∧ log <+: r.2 ∧
        (∀ k, (params.lookup k).isSome ↔
          k ∈ ps.map AuthParam.Name ∨ k ∈ (authExtras rt fuel a log auth).map Prod.fst) ∧
        (∀ k, k ∈ (authExtras rt fuel a log auth).map Prod.fst →
          params.lookup k = lastEntered (authExtras rt fuel a log auth) k) ∧
        (∀ k, k ∈ ps.map AuthParam.Name →
          k ∉ (authExtras rt fuel a log auth).map Prod.fst →
          ∃ p ∈ ps, p.Name = k ∧ ∃ h, log <+: h ∧
            params.lookup k =
              some (a.askInput h ("Auth parameter " ++ k) (mapStr auth.Params k) p.Required
                p.Help))
    | Res.panic => rt.authHandlers.lookup (authChoice rt a log auth) = none
    | Res.more =>
      (rt.authHandlers.lookup (authChoice rt a log auth)).isSome ∧
        (authExtras rt fuel a log auth).length = fuel := by
  unfold askAuth authExtras
  cases hps : rt.authHandlers.lookup (authChoice rt a log auth) with
  | none => simp only
  | some ps =>
    simp only
    have hdecl : ps.foldl (askParam a auth.Params) (∅, log ++ [authTypeCall rt log auth]) =
        askDeclared rt a log auth ps := rfl
    rw [hdecl]
    rcases askExtras_eq a auth.Params fuel (askDeclared rt a log auth ps).1
        (askDeclared rt a log auth ps).2 with ⟨log', h, hp⟩ | ⟨h, hl⟩
    · rw [h]
      simp only [Res.bind]
      have hlook : ∀ k, (((extrasEntered a auth.Params fuel (askDeclared rt a log auth ps).2).foldl
            (fun p e => p.insert e.1 e.2) (askDeclared rt a log auth ps).1).lookup k) =
          match lastEntered (extrasEntered a auth.Params fuel (askDeclared rt a log auth ps).2) k
          with
          | some v => some v
          | none => (askDeclared rt a log auth ps).1.lookup k :=
        fun k => lookup_foldl_extras k _ _
      refine ⟨ps, _, rfl, rfl, (askDeclared_log_extends rt a log auth ps).trans hp, ?_, ?_, ?_⟩
      · intro k
        rw [hlook k]
        cases hle : lastEntered (extrasEntered a auth.Params fuel
            (askDeclared rt a log auth ps).2) k with
        | some v =>
          have hmem : k ∈ (extrasEntered a auth.Params fuel
              (askDeclared rt a log auth ps).2).map Prod.fst := by
            by_contra hn
            rw [(lastEntered_eq_none _ k).2 hn] at hle
            cases hle
          simp [hmem]
        | none =>
          have hn := (lastEntered_eq_none _ k).1 hle
          simp only [hn, or_false]
          by_cases hd : k ∈ ps.map AuthParam.Name
          · obtain ⟨p, _, _, h', _, hl'⟩ := foldl_askParam_lookup a auth.Params k ps
              (∅, log ++ [authTypeCall rt log auth]) hd
            rw [← hdecl, hl']
            simp [hd]
          · rw [← hdecl, foldl_askParam_lookup_none a auth.Params k ps _ hd]
            simp [hd]
      · intro k hk
        rw [hlook k]
        cases hle : lastEntered (extrasEntered a auth.Params fuel
            (askDeclared rt a log auth ps).2) k with
        | some v => rfl
        | none => exact absurd hk ((lastEntered_eq_none _ k).1 hle)
      · intro k hd hn
        rw [hlook k, (lastEntered_eq_none _ k).2 hn]
        obtain ⟨p, hp', hname, h', hpre, hl'⟩ := foldl_askParam_lookup a auth.Params k ps
          (∅, log ++ [authTypeCall rt log auth]) hd
        exact ⟨p, hp', hname, h', (prefix_append _ _).trans hpre, hl'⟩
    · rw [h]
      simp only [Res.bind]
      exact ⟨rfl, hl⟩

/-- C17, what the code does: for the prompt `region` with the choices `us` and
`eu` the options built are `0` and `1`, the indices of the choices, and these
are the options of the select call that `askLoadBaseAPI` makes; the declared
default `us` is not among them. -/
theorem enumStr_lists_indices :
    enumStr ⟨"Region", some ⟨"us"⟩, [⟨"us"⟩, ⟨"eu"⟩]⟩ = ["0", "1"] ∧
      (askLoadBaseAPI (fun _ => Except.ok regionAPI) RangeOrders.stored acceptDefaults []
        freshConfig).2 = [Call.select "region" ["0", "1"] (some "us") "Region"] ∧
      "us" ∉ enumStr ⟨"Region", some ⟨"us"⟩, [⟨"us"⟩, ⟨"eu"⟩]⟩ := by
  decide

theorem mem_rangeOver {V : Type} (ord : RangeOrder) (m : Option (GoMap V))
    (e : Sigma fun _ : String => V) (he : e ∈ rangeOver ord m) : mapGet m e.1 = some e.2 := by
  cases m with
  | none => simp [rangeOver] at he
  | some m =>
    obtain ⟨k, v⟩ := e
    exact AList.mem_lookup_iff.2 ((ord.perm m.entries).subset he)

theorem editOptions_cases (rt : Runtime) (log : List Call) (profile : APIProfile)
    (choice : String) (h : choice ∈ editOptions rt log profile) :
    choice = "Add header" ∨
      (∃ k, (mapGet profile.Headers k).isSome ∧ choice = "Edit header " ++ k) ∨
      (∃ k, (mapGet profile.Headers k).isSome ∧ choice = "Delete header " ++ k) ∨
      choice = "Add query param" ∨
      (∃ k, (mapGet profile.Query k).isSome ∧ choice = "Edit query param " ++ k) ∨
      (∃ k, (mapGet profile.Query k).isSome ∧ choice = "Delete query param " ++ k) ∨
      choice = "Setup auth" ∨ choice = "Finished with profile" := by
  unfold editOptions at h
  rcases mem_append.1 h with h | h
  · rcases mem_append.1 h with h | h
    · rcases mem_append.1 h with h | h
      · rcases mem_append.1 h with h | h
        · rcases mem_append.1 h with h | h
          · rcases mem_append.1 h with h | h
            · exact Or.inl (mem_singleton.1 h)
            · obtain ⟨e, he, h⟩ := mem_map.1 h
              exact Or.inr (Or.inl ⟨e.1, by rw [mem_rangeOver _ _ e he]; rfl, h.symm⟩)
          · obtain ⟨e, he, h⟩ := mem_map.1 h
            exact Or.inr (Or.inr (Or.inl ⟨e.1, by rw [mem_rangeOver _ _ e he]; rfl, h.symm⟩))
        · exact Or.inr (Or.inr (Or.inr (Or.inl (mem_singleton.1 h))))
      · obtain ⟨e, he, h⟩ := mem_map.1 h
        exact Or.inr (Or.inr (Or.inr (Or.inr (Or.inl
          ⟨e.1, by rw [mem_rangeOver _ _ e he]; rfl, h.symm⟩))))
    · obtain ⟨e, he, h⟩ := mem_map.1 h
      exact Or.inr (Or.inr (Or.inr (Or.inr (Or.inr (Or.inl
        ⟨e.1, by rw [mem_rangeOver _ _ e he]; rfl, h.symm⟩)))))
  · rcases mem_cons.1 h with h | h
    · exact Or.inr (Or.inr (Or.inr (Or.inr (Or.inr (Or.inr (Or.inl h))))))
    · exact Or.inr (Or.inr (Or.inr (Or.inr (Or.inr (Or.inr (Or.inr (mem_singleton.1 h)))))))

theorem initOptions_cases (rt : Runtime) (log : List Call) (config : APIConfig)
    (choice : String) (h : choice ∈ initOptions rt log config) :
    choice = "Change base URI (" ++ config.Base ++ ")" ∨ choice = "Add profile" ∨
      (∃ k, (mapGet config.Profiles k).isSome ∧ choice = "Edit profile " ++ k) ∨
      choice = "Save and exit" := by
  unfold initOptions at h
  rcases mem_append.1 h with h | h
  · rcases mem_append.1 h with h | h
    · rcases mem_cons.1 h with h | h
      · exact Or.inl h
      · exact Or.inr (Or.inl (mem_singleton.1 h))
    · obtain ⟨e, he, h⟩ := mem_map.1 h
      exact Or.inr (Or.inr (Or.inl ⟨e.1, by rw [mem_rangeOver _ _ e he]; rfl, h.symm⟩))
  · exact Or.inr (Or.inr (Or.inr (mem_singleton.1 h)))

theorem option_of_edit_header (rt : Runtime) (log : List Call) (profile : APIProfile)
    (choice : String) (h : choice ∈ editOptions rt log profile)
    (hp : HasPrefix choice "Edit header" = true) :
    ∃ k, (mapGet profile.Headers k).isSome ∧ choice = "Edit header " ++ k := by
  rcases editOptions_cases rt log profile choice h with h | h | ⟨k, _, h⟩ | h | ⟨k, _, h⟩ |
    ⟨k, _, h⟩ | h | h
  · subst h; exact absurd hp (by decide)
  · exact h
  · subst h; simp [HasPrefix, String.data_append, isPrefixOf] at hp
  · subst h; exact absurd hp (by decide)
  · subst h; simp [HasPrefix, String.data_append, isPrefixOf] at hp
  · subst h; simp [HasPrefix, String.data_append, isPrefixOf] at hp
  · subst h; exact absurd hp (by decide)
  · subst h; exact absurd hp (by decide)

theorem option_of_delete_header (rt : Runtime) (log : List Call) (profile : APIProfile)
    (choice : String) (h : choice ∈ editOptions rt log profile)
    (hp : HasPrefix choice "Delete header" = true) :
    ∃ k, (mapGet profile.Headers k).isSome ∧ choice = "Delete header " ++ k := by
  rcases editOptions_cases rt log profile choice h with h | ⟨k, _, h⟩ | h | h | ⟨k, _, h⟩ |
    ⟨k, _, h⟩ | h | h
  · subst h; exact absurd hp (by decide)
  · subst h; simp [HasPrefix, String.data_append, isPrefixOf] at hp
  · exact h
  · subst h; exact absurd hp (by decide)
  · subst h; simp [HasPrefix, String.data_append, isPrefixOf] at hp
  · subst h; simp [HasPrefix, String.data_append, isPrefixOf] at hp
  · subst h; exact absurd hp (by decide)
  · subst h; exact absurd hp (by decide)

theorem option_of_edit_query (rt : Runtime) (log : List Call) (profile : APIProfile)
    (choice : String) (h : choice ∈ editOptions rt log profile)
    (hp : HasPrefix choice "Edit query param" = true) :
    ∃ k, (mapGet profile.Query k).isSome ∧ choice = "Edit query param " ++ k := by
  rcases editOptions_cases rt log profile choice h with h | ⟨k, _, h⟩ | ⟨k, _, h⟩ | h | h |
    ⟨k, _, h⟩ | h | h
  · subst h; exact absurd hp (by decide)
  · subst h; simp [HasPrefix, String.data_append, isPrefixOf] at hp
  · subst h; simp [HasPrefix, String.data_append, isPrefixOf] at hp
  · subst h; exact absurd hp (by decide)
  · exact h
  · subst h; simp [HasPrefix, String.data_append, isPrefixOf] at hp
  · subst h; exact absurd hp (by decide)
  · subst h; exact absurd hp (by decide)

theorem option_of_delete_query (rt : Runtime) (log : List Call) (profile : APIProfile)
    (choice : String) (h : choice ∈ editOptions rt log profile)
    (hp : HasPrefix choice "Delete query param" = true) :
    ∃ k, (mapGet profile.Query k).isSome ∧ choice = "Delete query param " ++ k := by
  rcases editOptions_cases rt log profile choice h with h | ⟨k, _, h⟩ | ⟨k, _, h⟩ | h |
    ⟨k, _, h⟩ | h | h | h
  · subst h; exact absurd hp (by decide)
  · subst h; simp [HasPrefix, String.data_append, isPrefixOf] at hp
  · subst h; simp [HasPrefix, String.data_append, isPrefixOf] at hp
  · subst h; exact absurd hp (by decide)
  · subst h; simp [HasPrefix, String.data_append, isPrefixOf] at hp
  · exact h
  · subst h; exact absurd hp (by decide)
  · subst h; exact absurd hp (by decide)

theorem option_of_edit_profile (rt : Runtime) (log : List Call) (config : APIConfig)
    (choice : String) (h : choice ∈ initOptions rt log config)
    (hp : HasPrefix choice "Edit profile" = true) :
    ∃ k, (mapGet config.Profiles k).isSome ∧ choice = "Edit profile " ++ k := by
  rcases initOptions_cases rt log config choice h with h | h | h | h
  · subst h; simp [HasPrefix, String.data_append, isPrefixOf] at hp
  · subst h; exact absurd hp (by decide)
  · exact h
  · subst h; exact absurd hp (by decide)

/-! ## Properties of the session -/

theorem editStep_finished (rt : Runtime) (fuel : Nat) (a : Asker) (name : String)
    (profile : APIProfile) (log : List Call)
    (hchoice : menuChoice rt a name profile log = "Finished with profile") :
    editStep rt fuel a name profile log =
      Res.ok (profile, log ++ [menuCall rt name profile log], true) := by
  unfold editStep
  simp only [hchoice]
  rfl

theorem askEditProfile_finished (rt : Runtime) (fuel : Nat) (a : Asker) (name : String)
    (profile : APIProfile) (log : List Call)
    (hchoice : menuChoice rt a name (initMaps profile) log = "Finished with profile") :
    askEditProfile rt (fuel + 1) a name profile log =
      Res.ok (initMaps profile, log ++ [menuCall rt name (initMaps profile) log]) := by
  unfold askEditProfile editLoop
  rw [editStep_finished rt fuel a name (initMaps profile) log hchoice]
  rfl

theorem initLoop_save (rt : Runtime) (a : Asker) (fuel : Nat) (config : APIConfig)
    (log : List Call)
    (hchoice : a.askSelect log "Select option" (initOptions rt log config) none "" =
      "Save and exit") :
    initLoop rt a (fuel + 1) config log =
      Res.ok (config, log ++ [Call.select "Select option" (initOptions rt log config) none ""]) := by
  unfold initLoop
  simp only [hchoice]
  rfl

theorem askLoadBaseAPI_fresh_error (Load : Loader) (o : RangeOrders) (a : Asker)
    (log : List Call) (name base e : String) (hload : Load base = Except.error e) :
    askLoadBaseAPI Load o a log ⟨name, base, some ∅⟩ = (⟨name, base, some ∅⟩, log) := by
  unfold askLoadBaseAPI
  simp only [hload]

theorem askLoadBaseAPI_fresh_plain (Load : Loader) (o : RangeOrders) (a : Asker)
    (log : List Call) (name base : String) (api : API) (hload : Load base = Except.ok api)
    (hac : api.AutoConfig.Auth.Name = "") (hadv : api.Auth = []) :
    askLoadBaseAPI Load o a log ⟨name, base, some ∅⟩ =
      (defaultOnly name base ⟨none, none, some APIAuth.zero⟩, log) := by
  unfold askLoadBaseAPI
  simp only [hload]
  rw [resolveAuth_of_empty o a log api hac, hadv]
  rfl

theorem firstSetup_base (rt : Runtime) (a : Asker) (log : List Call) (name : String)
    (rest : List String) :
    (match rest with
      | [] => askBaseURI rt a log ⟨name, "", some ∅⟩
      | base :: _ => askLoadBaseAPI rt.Load (rt.resolver log) a log ⟨name, base, some ∅⟩) =
      askLoadBaseAPI rt.Load (rt.resolver (sessionLog log rest)) a (sessionLog log rest)
        ⟨name, sessionBase a log rest, some ∅⟩ := by
  cases rest with
  | nil => rfl
  | cons base t => rfl

theorem editStep_add_header (rt : Runtime) (fuel : Nat) (a : Asker) (name : String)
    (profile : APIProfile) (log : List Call)
    (hchoice : menuChoice rt a name profile log = "Add header") :
    editStep rt fuel a name profile log =
      (mapSet profile.Headers
          (a.askInput (log ++ [menuCall rt name profile log]) "Header name" "" true "")
          (a.askInput
            (log ++ [menuCall rt name profile log] ++ [Call.input "Header name" "" true ""])
            "Header value" "" false "")).bind
        (fun hs => Res.ok ({ profile with Headers := hs },
          log ++ [menuCall rt name profile log] ++ [Call.input "Header name" "" true ""] ++
            [Call.input "Header value" "" false ""], false)) := by
  unfold editStep
  simp only [hchoice, if_true]

theorem editStep_add_query (rt : Runtime) (fuel : Nat) (a : Asker) (name : String)
    (profile : APIProfile) (log : List Call)
    (hchoice : menuChoice rt a name profile log = "Add query param") :
    editStep rt fuel a name profile log =
      (mapSet profile.Query
          (a.askInput (log ++ [menuCall rt name profile log]) "Query param name" "" true "")
          (a.askInput
            (log ++ [menuCall rt name profile log] ++ [Call.input "Query param name" "" true ""])
            "Query param value" "" false "")).bind
        (fun qs => Res.ok ({ profile with Query := qs },
          log ++ [menuCall rt name profile log] ++ [Call.input "Query param name" "" true ""] ++
            [Call.input "Query param value" "" false ""], false)) := by
  unfold editStep
  have h1 : ("Add query param" : String) ≠ "Add header" := by decide
  have h2 : HasPrefix "Add query param" "Edit header" = false := by decide
  have h3 : HasPrefix "Add query param" "Delete header" = false := by decide
  simp only [hchoice, h1, h2, h3, if_true, if_false, Bool.false_eq_true]

theorem initLoop_edit_profile (rt : Runtime) (a : Asker) (fuel : Nat) (config : APIConfig)
    (log : List Call) (k : String) (ps : GoMap APIProfile) (p : APIProfile)
    (hchoice : a.askSelect log "Select option" (initOptions rt log config) none "" =
      "Edit profile " ++ k)
    (hps : config.Profiles = some ps) (hp : ps.lookup k = some p) :
    initLoop rt a (fuel + 1) config log =
      (askEditProfile rt fuel a k p
          (log ++ [Call.select "Select option" (initOptions rt log config) none ""])).bind
        (fun r => initLoop rt a fuel { config with Profiles := some (ps.replace k r.1) } r.2) := by
  rw [initLoop]
  simp only [hchoice, (guard_edit_profile k).1, (guard_edit_profile k).2.1,
    (guard_edit_profile k).2.2, SplitN_edit_profile, if_true, if_false, Bool.false_eq_true]
  simp only [List.getElem?_cons_succ, List.getElem?_cons_zero, hps, hp]

theorem initLoop_add_profile (rt : Runtime) (a : Asker) (fuel : Nat) (config : APIConfig)
    (log : List Call)
    (hchoice : a.askSelect log "Select option" (initOptions rt log config) none "" =
      "Add profile") :
    initLoop rt a (fuel + 1) config log =
      (askAddProfile rt fuel a
          (log ++ [Call.select "Select option" (initOptions rt log config) none ""]) config).bind
        (fun r => initLoop rt a fuel r.1 r.2) := by
  rw [initLoop]
  have h1 : HasPrefix "Add profile" "Change base URI" = false := by decide
  simp only [hchoice, h1, if_true, if_false, Bool.false_eq_true]

theorem editStep_shown_no_panic (rt : Runtime) (fuel : Nat) (a : Asker) (name : String)
    (profile : APIProfile) (log : List Call)
    (hshown : menuChoice rt a name profile log ∈ editOptions rt log profile)
    (hpanic : editStep rt fuel a name profile log = Res.panic) :
    profile.Headers = none ∨ profile.Query = none ∨
      menuChoice rt a name profile log = "Setup auth" := by
  cases hH : profile.Headers with
  | none => exact Or.inl rfl
  | some hs =>
    cases hQ : profile.Query with
    | none => exact Or.inr (Or.inl rfl)
    | some qs =>
      refine Or.inr (Or.inr ?_)
      rcases editOptions_cases rt log profile _ hshown with h | ⟨k, _, h⟩ | ⟨k, _, h⟩ | h |
        ⟨k, _, h⟩ | ⟨k, _, h⟩ | h | h
      · rw [editStep_add_header rt fuel a name profile log h, hH] at hpanic
        simp [mapSet, Res.bind] at hpanic
      · rw [editStep_edit_header rt fuel a name profile log k h, hH] at hpanic
        simp [mapSet, Res.bind] at hpanic
      · rw [editStep_delete_header rt fuel a name profile log k h] at hpanic
        cases hpanic
      · rw [editStep_add_query rt fuel a name profile log h, hQ] at hpanic
        simp [mapSet, Res.bind] at hpanic
      · rw [editStep_edit_query rt fuel a name profile log k h, hH] at hpanic
        simp [mapSet, Res.bind] at hpanic
      · rw [editStep_delete_query rt fuel a name profile log k h] at hpanic
        cases hpanic
      · exact h
      · rw [editStep_finished rt fuel a name profile log h] at hpanic
        cases hpanic

theorem initLoop_shown_edit_profile (rt : Runtime) (a : Asker) (fuel : Nat)
    (config : APIConfig) (log : List Call)
    (hshown : a.askSelect log "Select option" (initOptions rt log config) none "" ∈
      initOptions rt log config)
    (hp : HasPrefix (a.askSelect log "Select option" (initOptions rt log config) none "")
      "Edit profile" = true) :
    ∃ k ps p, a.askSelect log "Select option" (initOptions rt log config) none "" =
        "Edit profile " ++ k ∧
      config.Profiles = some ps ∧ ps.lookup k = some p ∧
      initLoop rt a (fuel + 1) config log =
        (askEditProfile rt fuel a k p
            (log ++ [Call.select "Select option" (initOptions rt log config) none ""])).bind
          (fun r => initLoop rt a fuel
            { config with Profiles := some (ps.replace k r.1) } r.2) := by
  obtain ⟨k, hk, hc⟩ := option_of_edit_profile rt log config _ hshown hp
  cases hps : config.Profiles with
  | none => rw [hps] at hk; exact absurd hk (by simp [mapGet])
  | some ps =>
    rw [hps] at hk
    obtain ⟨p, hp'⟩ := Option.isSome_iff_exists.1 hk
    exact ⟨k, ps, p, hc, rfl, hp', initLoop_edit_profile rt a fuel config log k ps p hc hps hp'⟩

/-- C18: for every key `k`, spaces or not, each of the options `Edit header k`,
`Delete header k`, `Edit query param k`, `Delete query param k` of the profile
menu and `Edit profile k` of the session menu fails the tests of the branches
before its own and passes the test of its own branch, and the key its branch
takes from `SplitN` is `k`.  In the code: when the user selects one of the four
options of the profile menu, the round of `askEditProfile` is the action of that
option carried out with the key `k` (name prompt seeded with `k`, confirmation
naming `k`, deletion of `k`), and when the user selects `Edit profile k` and the
profile `k` exists, the round of the session loop is `askEditProfile` called
with the name `k` on that profile, its result stored under `k`, followed by the
rest of the loop.  Hence when the option selected is one of those shown: an
option that passes the test of one of the four branches was made from a key of
the map, and the round panics only when the header or query map is nil or the
option is `Setup auth`, never at the index; and when it passes the test of
`Edit profile`, the profile looked up exists and the round is the edit of that
profile.  For example, in a configuration whose only profile is `my profile`
with the header `X Key`, selecting `Edit profile my profile`, then
`Delete header X Key` and confirming, then `Finished with profile` and
`Save and exit` returns after five calls with that profile left without
headers. -/
theorem menu_options_round_trip :
    (∀ k : String,
      ("Edit header " ++ k ≠ "Add header" ∧ HasPrefix ("Edit header " ++ k) "Edit header" = true ∧
        (SplitN ("Edit header " ++ k) " " 3)[2]? = some k) ∧
      ("Delete header " ++ k ≠ "Add header" ∧
        HasPrefix ("Delete header " ++ k) "Edit header" = false ∧
        HasPrefix ("Delete header " ++ k) "Delete header" = true ∧
        (SplitN ("Delete header " ++ k) " " 3)[2]? = some k) ∧
      ("Edit query param " ++ k ≠ "Add header" ∧
        HasPrefix ("Edit query param " ++ k) "Edit header" = false ∧
        HasPrefix ("Edit query param " ++ k) "Delete header" = false ∧
        "Edit query param " ++ k ≠ "Add query param" ∧
        HasPrefix ("Edit query param " ++ k) "Edit query param" = true ∧
        (SplitN ("Edit query param " ++ k) " " 4)[3]? = some k) ∧
      ("Delete query param " ++ k ≠ "Add header" ∧
        HasPrefix ("Delete query param " ++ k) "Edit header" = false ∧
        HasPrefix ("Delete query param " ++ k) "Delete header" = false ∧
        "Delete query param " ++ k ≠ "Add query param" ∧
        HasPrefix ("Delete query param " ++ k) "Edit query param" = false ∧
        HasPrefix ("Delete query param " ++ k) "Delete query param" = true ∧
        (SplitN ("Delete query param " ++ k) " " 4)[3]? = some k) ∧
      (HasPrefix ("Edit profile " ++ k) "Change base URI" = false ∧
        "Edit profile " ++ k ≠ "Add profile" ∧
        HasPrefix ("Edit profile " ++ k) "Edit profile" = true ∧
        (SplitN ("Edit profile " ++ k) " " 3)[2]? = some k)) ∧
    (∀ (rt : Runtime) (fuel : Nat) (a : Asker) (name : String) (profile : APIProfile)
        (log : List Call) (k : String),
      (menuChoice rt a name profile log = "Edit header " ++ k →
        editStep rt fuel a name profile log =
          (mapSet profile.Headers
              (a.askInput (log ++ [menuCall rt name profile log]) "Header name" k true "")
              (a.askInput
                (log ++ [menuCall rt name profile log] ++ [Call.input "Header name" k true ""])
                "Header value"
                (mapStr profile.Headers
                  (a.askInput (log ++ [menuCall rt name profile log]) "Header name" k true ""))
                false "")).bind
            (fun hs => Res.ok ({ profile with Headers := hs },
              log ++ [menuCall rt name profile log] ++ [Call.input "Header name" k true ""] ++
                [Call.input "Header value"
                  (mapStr profile.Headers
                    (a.askInput (log ++ [menuCall rt name profile log]) "Header name" k true ""))
                  false ""], false))) ∧
      (menuChoice rt a name profile log = "Delete header " ++ k →
        editStep rt fuel a name profile log =
          Res.ok
            (if a.askConfirm (log ++ [menuCall rt name profile log])
                ("Are you sure you want to delete the " ++ k ++ " header?") false "" = true
              then { profile with Headers := mapDelete profile.Headers k } else profile,
            log ++ [menuCall rt name profile log] ++
              [Call.confirm ("Are you sure you want to delete the " ++ k ++ " header?") false ""],
            false)) ∧
      (menuChoice rt a name profile log = "Edit query param " ++ k →
        editStep rt fuel a name profile log =
          (mapSet profile.Headers
              (a.askInput (log ++ [menuCall rt name profile log]) "Query param name" k true "")
              (a.askInput
                (log ++ [menuCall rt name profile log] ++
                  [Call.input "Query param name" k true ""])
                "Query param value"
                (mapStr profile.Query
                  (a.askInput (log ++ [menuCall rt name profile log]) "Query param name" k true
                    ""))
                false "")).bind
            (fun hs => Res.ok ({ profile with Headers := hs },
              log ++ [menuCall rt name profile log] ++
                [Call.input "Query param name" k true ""] ++
                [Call.input "Query param value"
                  (mapStr profile.Query
                    (a.askInput (log ++ [menuCall rt name profile log]) "Query param name" k true
                      ""))
                  false ""], false))) ∧
      (menuChoice rt a name profile log = "Delete query param " ++ k →
        editStep rt fuel a name profile log =
          Res.ok
            (if a.askConfirm (log ++ [menuCall rt name profile log])
                ("Are you sure you want to delete the " ++ k ++ " query param?") false "" = true
              then { profile with Query := mapDelete profile.Query k } else profile,
            log ++ [menuCall rt name profile log] ++
              [Call.confirm ("Are you sure you want to delete the " ++ k ++ " query param?")
                false ""],
            false))) ∧
    (∀ (rt : Runtime) (a : Asker) (fuel : Nat) (config : APIConfig) (log : List Call)
        (k : String) (ps : GoMap APIProfile) (p : APIProfile),
      a.askSelect log "Select option" (initOptions rt log config) none "" =
        "Edit profile " ++ k →
      config.Profiles = some ps → ps.lookup k = some p →
      initLoop rt a (fuel + 1) config log =
        (askEditProfile rt fuel a k p
            (log ++ [Call.select "Select option" (initOptions rt log config) none ""])).bind
          (fun r => initLoop rt a fuel
            { config with Profiles := some (ps.replace k r.1) } r.2)) ∧
    (∀ (rt : Runtime) (fuel : Nat) (a : Asker) (name : String) (profile : APIProfile)
        (log : List Call),
      menuChoice rt a name profile log ∈ editOptions rt log profile →
      (HasPrefix (menuChoice rt a name profile log) "Edit header" = true →
        ∃ k, (mapGet profile.Headers k).isSome ∧
          menuChoice rt a name profile log = "Edit header " ++ k) ∧
      (HasPrefix (menuChoice rt a name profile log) "Delete header" = true →
        ∃ k, (mapGet profile.Headers k).isSome ∧
          menuChoice rt a name profile log = "Delete header " ++ k) ∧
      (HasPrefix (menuChoice rt a name profile log) "Edit query param" = true →
        ∃ k, (mapGet profile.Query k).isSome ∧
          menuChoice rt a name profile log = "Edit query param " ++ k) ∧
      (HasPrefix (menuChoice rt a name profile log) "Delete query param" = true →
        ∃ k, (mapGet profile.Query k).isSome ∧
          menuChoice rt a name profile log = "Delete query param " ++ k) ∧
      (editStep rt fuel a name profile log = Res.panic →
        profile.Headers = none ∨ profile.Query = none ∨
          menuChoice rt a name profile log = "Setup auth")) ∧
    (∀ (rt : Runtime) (a : Asker) (fuel : Nat) (config : APIConfig) (log : List Call),
      a.askSelect log "Select option" (initOptions rt log config) none "" ∈
        initOptions rt log config →
      HasPrefix (a.askSelect log "Select option" (initOptions rt log config) none "")
        "Edit profile" = true →
      ∃ k ps p, a.askSelect log "Select option" (initOptions rt log config) none "" =
          "Edit profile " ++ k ∧
        config.Profiles = some ps ∧ ps.lookup k = some p ∧
        initLoop rt a (fuel + 1) config log =
          (askEditProfile rt fuel a k p
              (log ++ [Call.select "Select option" (initOptions rt log config) none ""])).bind
            (fun r => initLoop rt a fuel
              { config with Profiles := some (ps.replace k r.1) } r.2)) ∧
    (initLoop plainRuntime
        (scriptAsker ["Edit profile my profile", "Delete header X Key", "Finished with profile",
          "Save and exit"] [] [true]) 3 spacedConfig []).val?.map
      (fun r => (r.1.Profiles.map (fun ps => ps.keys),
        (mapGet r.1.Profiles "my profile").map (fun p => p.Headers.map (fun hs => hs.keys)),
        r.2.length)) = some (some ["my profile"], some (some []), 5) := by
  refine ⟨fun k => ⟨⟨(guard_edit_header k).1, (guard_edit_header k).2, ?_⟩,
    ⟨(guard_delete_header k).1, (guard_delete_header k).2.1, (guard_delete_header k).2.2, ?_⟩,
    ⟨(guard_edit_query k).1, (guard_edit_query k).2.1, (guard_edit_query k).2.2.1,
      (guard_edit_query k).2.2.2.1, (guard_edit_query k).2.2.2.2, ?_⟩,
    ⟨(guard_delete_query k).1, (guard_delete_query k).2.1, (guard_delete_query k).2.2.1,
      (guard_delete_query k).2.2.2.1, (guard_delete_query k).2.2.2.2.1,
      (guard_delete_query k).2.2.2.2.2, ?_⟩,
    ⟨(guard_edit_profile k).1, (guard_edit_profile k).2.1, (guard_edit_profile k).2.2, ?_⟩⟩,
    ?_, ?_, ?_, ?_, ?_⟩
  · rw [SplitN_edit_header]; rfl
  · rw [SplitN_delete_header]; rfl
  · rw [SplitN_edit_query]; rfl
  · rw [SplitN_delete_query]; rfl
  · rw [SplitN_edit_profile]; rfl
  · intro rt fuel a name profile log k
    exact ⟨editStep_edit_header rt fuel a name profile log k,
      editStep_delete_header rt fuel a name profile log k,
      editStep_edit_query rt fuel a name profile log k,
      editStep_delete_query rt fuel a name profile log k⟩
  · intro rt a fuel config log k ps p
    exact initLoop_edit_profile rt a fuel config log k ps p
  · intro rt fuel a name profile log h
    exact ⟨option_of_edit_header rt log profile _ h, option_of_delete_header rt log profile _ h,
      option_of_edit_query rt log profile _ h, option_of_delete_query rt log profile _ h,
      editStep_shown_no_panic rt fuel a name profile log h⟩
  · intro rt a fuel config log
    exact initLoop_shown_edit_profile rt a fuel config log
  · decide

theorem replace_insert_empty {V : Type} (k : String) (v w : V) :
    (AList.insert k v (∅ : GoMap V)).replace k w = AList.insert k w (∅ : GoMap V) := by
  apply AList.ext
  have h : (AList.insert k v (∅ : GoMap V)).entries = [⟨k, v⟩] := by
    simp [AList.insert]
  have h' : (AList.insert k w (∅ : GoMap V)).entries = [⟨k, w⟩] := by
    simp [AList.insert]
  rw [h']
  show List.kreplace k w (AList.insert k v (∅ : GoMap V)).entries = [⟨k, w⟩]
  rw [h]
  unfold List.kreplace
  exact List.lookmap_cons_some _ _ (by simp)

theorem insert_insert_empty {V : Type} (k : String) (v w : V) :
    (AList.insert k v (∅ : GoMap V)).insert k w = AList.insert k w (∅ : GoMap V) :=
  AList.insert_insert _

theorem askAddProfile_finished (rt : Runtime) (fuel : Nat) (a : Asker) (log : List Call)
    (config : APIConfig) (ps : GoMap APIProfile) (hps : config.Profiles = some ps)
    (hchoice : menuChoice rt a (a.askInput log "Profile name" "default" true "")
      (initMaps APIProfile.zero) (log ++ [Call.input "Profile name" "default" true ""]) =
      "Finished with profile") :
    askAddProfile rt (fuel + 1) a log config =
      Res.ok ({ config with
          Profiles := some (ps.insert (a.askInput log "Profile name" "default" true "")
            (initMaps APIProfile.zero)) },
        log ++ [Call.input "Profile name" "default" true ""] ++
          [menuCall rt (a.askInput log "Profile name" "default" true "")
            (initMaps APIProfile.zero) (log ++ [Call.input "Profile name" "default" true ""])]) := by
  unfold askAddProfile
  simp only [hps]
  rw [askEditProfile_finished rt fuel a _ APIProfile.zero _ hchoice]
  rfl

/-- C12, the claim as stated fails: `Load` succeeds with a description that has
no auto-configuration and advertises no scheme, the user selects
`Edit profile default`, leaves the profile menu with `Finished with profile`
without adding anything, and selects `Save and exit`.  The session ends after
these three menus with the single profile `default`, whose header and query
maps are empty, but whose auth block is not nil: it is the empty auth block. -/
theorem askInitAPI_edit_default_has_auth_block :
    (askInitAPI foundRuntime 2
        (scriptAsker ["Edit profile default", "Finished with profile", "Save and exit"] [] [])
        [] ∅ ["example", "https://api.example.com"]).val?.map
        (fun r => r.2.2.Profiles.map (fun ps => ps.keys)) = some (some ["default"]) ∧
      (askInitAPI foundRuntime 2
        (scriptAsker ["Edit profile default", "Finished with profile", "Save and exit"] [] [])
        [] ∅ ["example", "https://api.example.com"]).val?.map
        (fun r => (defaultProfile r.2.2).map (fun p => (p.Headers.map (fun m => m.keys),
          p.Query.map (fun m => m.keys)))) = some (some (some [], some [])) ∧
      (askInitAPI foundRuntime 2
        (scriptAsker ["Edit profile default", "Finished with profile", "Save and exit"] [] [])
        [] ∅ ["example", "https://api.example.com"]).val?.map
        (fun r => (defaultProfile r.2.2).map
          (fun p => p.Auth.map (fun b => (b.Name, b.Params.isSome)))) =
        some (some (some ("", false))) ∧
      (askInitAPI foundRuntime 2
        (scriptAsker ["Edit profile default", "Finished with profile", "Save and exit"] [] [])
        [] ∅ ["example", "https://api.example.com"]).val?.map
        (fun r => r.2.1.length) = some 3 := by
  decide

/-- C12, amended: for an API with no stored configuration, take a user who
leaves every menu of the profile `default` with `Finished with profile` and
answers every session menu after the first call of the session with
`Save and exit`.  When `Load` fails for the base URI, the profile menu opens by
itself and the session ends, for every bound of at least one round, with the
configuration saved and stored under the name of the API holding exactly one
profile, `default`, with empty header and query maps and a nil auth block.  When
`Load` succeeds with an empty auto-configuration scheme name and no advertised
scheme, the session menu comes first, and for every bound of at least two
rounds: if the user answers it with `Edit profile default`, the session ends
with exactly one profile, `default`, with empty header and query maps and the
empty auth block, which is not nil; if the user answers it with `Add profile`
and names the profile `default`, the session ends with exactly one profile,
`default`, with empty header and query maps and a nil auth block. -/
theorem askInitAPI_fresh_default (rt : Runtime) (fuel : Nat) (a : Asker) (log : List Call)
    (configs : GoMap APIConfig) (name : String) (rest : List String)
    (hnew : configs.lookup name = none)
    (hfin : ∀ h options, a.askSelect h (menuMessage "default") options none "" =
      "Finished with profile")
    (hsave : ∀ h options, (sessionLog log rest).length < h.length →
      a.askSelect h "Select option" options none "" = "Save and exit") :
    (∀ e, rt.Load (sessionBase a log rest) = Except.error e →
      ∃ log', askInitAPI rt (fuel + 1) a log configs (name :: rest) =
        Res.ok (configs.insert name
            (defaultOnly name (sessionBase a log rest) ⟨some ∅, some ∅, none⟩),
          log', defaultOnly name (sessionBase a log rest) ⟨some ∅, some ∅, none⟩)) ∧
    (∀ api, rt.Load (sessionBase a log rest) = Except.ok api →
      api.AutoConfig.Auth.Name = "" → api.Auth = [] →
      (∀ options, a.askSelect (sessionLog log rest) "Select option" options none "" =
        "Edit profile default") →
      ∃ log', askInitAPI rt (fuel + 2) a log configs (name :: rest) =
        Res.ok (configs.insert name
            (defaultOnly name (sessionBase a log rest) ⟨some ∅, some ∅, some APIAuth.zero⟩),
          log',
          defaultOnly name (sessionBase a log rest) ⟨some ∅, some ∅, some APIAuth.zero⟩)) ∧
    (∀ api, rt.Load (sessionBase a log rest) = Except.ok api →
      api.AutoConfig.Auth.Name = "" → api.Auth = [] →
      (∀ options, a.askSelect (sessionLog log rest) "Select option" options none "" =
        "Add profile") →
      (∀ h, a.askInput h "Profile name" "default" true "" = "default") →
      ∃ log', askInitAPI rt (fuel + 2) a log configs (name :: rest) =
        Res.ok (configs.insert name
            (defaultOnly name (sessionBase a log rest) ⟨some ∅, some ∅, none⟩),
          log', defaultOnly name (sessionBase a log rest) ⟨some ∅, some ∅, none⟩)) := by
  have hl : AList.lookup "default"
      (AList.insert "default" (⟨none, none, some APIAuth.zero⟩ : APIProfile)
        (∅ : GoMap APIProfile)) =
      some (⟨none, none, some APIAuth.zero⟩ : APIProfile) := AList.lookup_insert _
  refine ⟨?_, ?_, ?_⟩
  · intro e hload
    unfold askInitAPI
    simp only [hnew]
    unfold firstSetup
    simp only [firstSetup_base]
    rw [askLoadBaseAPI_fresh_error rt.Load _ a _ name _ e hload]
    simp only [AList.lookup_empty]
    rw [askEditProfile_finished rt fuel a "default" APIProfile.zero _ (hfin _ _)]
    simp only [Res.bind]
    rw [initLoop_save rt a fuel _ _ (hsave _ _ (by simp))]
    exact ⟨_, rfl⟩
  · intro api hload hac hadv hedit
    unfold askInitAPI
    simp only [hnew]
    unfold firstSetup
    simp only [firstSetup_base]
    rw [askLoadBaseAPI_fresh_plain rt.Load _ a _ name _ api hload hac hadv]
    simp only [defaultOnly, hl, Res.bind]
    rw [initLoop_edit_profile rt a (fuel + 1) _ _ "default" _ _ (hedit _) rfl hl]
    rw [askEditProfile_finished rt fuel a "default" _ _ (hfin _ _)]
    simp only [Res.bind]
    rw [initLoop_save rt a fuel _ _ (hsave _ _ (by simp))]
    rw [replace_insert_empty]
    exact ⟨_, rfl⟩
  · intro api hload hac hadv hadd hname
    unfold askInitAPI
    simp only [hnew]
    unfold firstSetup
    simp only [firstSetup_base]
    rw [askLoadBaseAPI_fresh_plain rt.Load _ a _ name _ api hload hac hadv]
    simp only [defaultOnly, hl, Res.bind]
    rw [initLoop_add_profile rt a (fuel + 1) _ _ (hadd _)]
    rw [askAddProfile_finished rt fuel a _ _ _ rfl (by rw [hname]; exact hfin _ _)]
    simp only [Res.bind, hname]
    rw [initLoop_save rt a fuel _ _ (hsave _ _ (by simp))]
    rw [insert_insert_empty]
    exact ⟨_, rfl⟩

theorem askInitAPI_fresh_default_witness :
    (∃ log', askInitAPI plainRuntime (0 + 1) quietAsker [] ∅
        ("example" :: ["https://api.example.com"]) =
      Res.ok (AList.insert "example"
          (defaultOnly "example" "https://api.example.com" ⟨some ∅, some ∅, none⟩) ∅,
        log', defaultOnly "example" "https://api.example.com" ⟨some ∅, some ∅, none⟩)) ∧
    (∃ log', askInitAPI foundRuntime (0 + 2) (firstThenSave "Edit profile default") [] ∅
        ("example" :: ["https://api.example.com"]) =
      Res.ok (AList.insert "example"
          (defaultOnly "example" "https://api.example.com"
            ⟨some ∅, some ∅, some APIAuth.zero⟩) ∅,
        log',
        defaultOnly "example" "https://api.example.com" ⟨some ∅, some ∅, some APIAuth.zero⟩)) ∧
    (∃ log', askInitAPI foundRuntime (0 + 2) (firstThenSave "Add profile") [] ∅
        ("example" :: ["https://api.example.com"]) =
      Res.ok (AList.insert "example"
          (defaultOnly "example" "https://api.example.com" ⟨some ∅, some ∅, none⟩) ∅,
        log', defaultOnly "example" "https://api.example.com" ⟨some ∅, some ∅, none⟩)) :=
  ⟨(askInitAPI_fresh_default plainRuntime 0 quietAsker [] ∅ "example"
      ["https://api.example.com"] rfl (fun _ _ => rfl) (fun _ _ _ => rfl)).1 "unreachable" rfl,
    (askInitAPI_fresh_default foundRuntime 0 (firstThenSave "Edit profile default") [] ∅
      "example" ["https://api.example.com"] rfl (fun _ _ => rfl)
      (fun h _ hlen => by cases h with
        | nil => exact absurd hlen (by decide)
        | cons c t => rfl)).2.1 plainAPI rfl rfl rfl (fun _ => rfl),
    (askInitAPI_fresh_default foundRuntime 0 (firstThenSave "Add profile") [] ∅
      "example" ["https://api.example.com"] rfl (fun _ _ => rfl)
      (fun h _ hlen => by cases h with
        | nil => exact absurd hlen (by decide)
        | cons c t => rfl)).2.2 plainAPI rfl rfl rfl (fun _ => rfl) (fun _ => rfl)⟩

end Restish
